import Mathlib

/-!
Shallow embedding of the broadlink-rm-ts protocol engine and proofs about it.

Buffers are modelled as `List Nat` with every byte write reduced modulo 256
(the semantics of assigning to a Node.js `Buffer` cell); reads out of range
yield 0, matching the zero fill of `Buffer.alloc` together with the clipped
`Buffer.copy` the source uses.  The AES block cipher is an external library
and is modelled as an abstract block function; the CBC chaining and the
"update only returns whole blocks" behaviour of the Node cipher object are
modelled explicitly.  Timers and event listeners of the RF-learning promises
are modelled as explicit state (active timer handles, registered listeners,
promise outcomes) with one step function per event source.
-/

namespace BroadlinkRM

/-- Writing a byte into a Node Buffer cell truncates the value modulo 256. -/
def setB (l : List Nat) (i v : Nat) : List Nat := l.set i (v % 256)

/-- The wraparound checksum of the protocol: a 16-bit sum with seed 0xBEAF
over all bytes of the buffer (the reference computation of the spec). -/
def wrapChecksum (l : List Nat) : Nat := (0xbeaf + l.sum) % 65536

/-- The checksum loop as written in `sendPacket`: the 16-bit mask is applied
after every addition. -/
def checksumFold (l : List Nat) : Nat :=
  l.foldl (fun c b => (c + b) % 65536) 0xbeaf

/-- The checksum loop as written in `onListening`: the bytes are summed first
and the 16-bit mask (`& 0xffff`) is applied once at the end. -/
def checksumSumThenMask (l : List Nat) : Nat := Nat.land (0xbeaf + l.sum) 0xffff

/-- Truncation toward zero of a JS number (rationals stand in for the
doubles the source manipulates). -/
def jsTrunc (q : ℚ) : Int := if 0 ≤ q then ⌊q⌋ else ⌈q⌉

/-- The `ToUint8` coercion applied when a JS number is stored into a
`Buffer` cell: truncate toward zero, then reduce modulo 2^8. -/
def jsToUint8 (q : ℚ) : Nat := (jsTrunc q % 256).toNat

/-- The `ToInt32` coercion applied to both operands of the JS bitwise `&`:
truncate toward zero, then wrap into `[-2^31, 2^31)`. -/
def jsToInt32 (q : ℚ) : Int := (jsTrunc q + 2 ^ 31) % 2 ^ 32 - 2 ^ 31

-- RM Devices (without RF support), table `rmDeviceTypes` from the source.
def rmDeviceTypes : List (Nat × String) :=
  [(0x2737, "Broadlink RM Mini"),
   (0x27c7, "Broadlink RM Mini 3 A"),
   (0x27c2, "Broadlink RM Mini 3 B"),
   (0x27de, "Broadlink RM Mini 3 C"),
   (0x5f36, "Broadlink RM Mini 3 D"),
   (0x273d, "Broadlink RM Pro Phicomm"),
   (0x2712, "Broadlink RM2"),
   (0x2783, "Broadlink RM2 Home Plus"),
   (0x277c, "Broadlink RM2 Home Plus GDT"),
   (0x278f, "Broadlink RM Mini Shate")]

-- RM Devices (with RF support), table `rmPlusDeviceTypes` from the source.
def rmPlusDeviceTypes : List (Nat × String) :=
  [(0x272a, "Broadlink RM2 Pro Plus"),
   (0x2787, "Broadlink RM2 Pro Plus v2"),
   (0x278b, "Broadlink RM2 Pro Plus BL"),
   (0x2797, "Broadlink RM2 Pro Plus HYC"),
   (0x27a1, "Broadlink RM2 Pro Plus R1"),
   (0x27a6, "Broadlink RM2 Pro PP"),
   (0x279d, "Broadlink RM3 Pro Plus"),
   (0x27a9, "Broadlink RM3 Pro Plus v2"),
   (0x27c3, "Broadlink RM3 Pro")]

-- Known Unsupported Devices, table `unsupportedDeviceTypes` from the source.
def unsupportedDeviceTypes : List (Nat × String) :=
  [(0, "Broadlink SP1"),
   (0x2711, "Broadlink SP2"),
   (0x2719, "Honeywell SP2"),
   (0x7919, "Honeywell SP2"),
   (0x271a, "Honeywell SP2"),
   (0x791a, "Honeywell SP2"),
   (0x2733, "OEM Branded SP Mini"),
   (0x273e, "OEM Branded SP Mini"),
   (0x2720, "Broadlink SP Mini"),
   (0x7d07, "Broadlink SP Mini"),
   (0x753e, "Broadlink SP 3"),
   (0x2728, "Broadlink SPMini 2"),
   (0x2736, "Broadlink SPMini Plus"),
   (0x2714, "Broadlink A1"),
   (0x4EB5, "Broadlink MP1"),
   (0x2722, "Broadlink S1 SmartOne Alarm Kit"),
   (0x4E4D, "Dooya DT360E or Hysen Heating Controller"),
   (0x4ead, "Dooya DT360E or Hysen Heating Controller"),
   (0x947a, "BroadLink Outlet")]

/-- `capabilites[RF]` of the `BroadlinkDevice` constructor:
`rmPlusDeviceTypes[type] !== undefined`. -/
def rfCapable (t : Nat) : Bool := (rmPlusDeviceTypes.lookup t).isSome

/-- Outcome of the classification performed by `Broadlink.addDevice`. -/
inductive AddDeviceResult where
  | ignoredUnsupported
  | ignoredOEMRange
  | ignoredUnknown
  | added (rf : Bool)
  deriving DecidableEq, Repr

/-- The device-type classification of `addDevice` in the current library
source (`&&` in the unknown-type test): unsupported exact table, then the
OEM range `[0x7530, 0x7918]`, then "unknown unless present in `rmDeviceTypes`
or `rmPlusDeviceTypes`", and otherwise a `BroadlinkDevice` is constructed
whose RF capability comes from membership in `rmPlusDeviceTypes`. -/
def addDeviceClassify (deviceType : Nat) : AddDeviceResult :=
  if (unsupportedDeviceTypes.lookup deviceType).isSome then
    .ignoredUnsupported
  else if 0x7530 ≤ deviceType ∧ deviceType ≤ 0x7918 then
    .ignoredOEMRange
  else if (rmDeviceTypes.lookup deviceType).isNone ∧
      (rmPlusDeviceTypes.lookup deviceType).isNone then
    .ignoredUnknown
  else
    .added (rfCapable deviceType)

/-- The device-type classification of `addDevice` in the older
`src/index.ts` variant, which tests
`rmDeviceTypes[deviceType] == undefined || rmPlusDeviceTypes[deviceType] == undefined`
(disjunction instead of conjunction) in the unknown-type branch. -/
def addDeviceClassifyIndex (deviceType : Nat) : AddDeviceResult :=
  if (unsupportedDeviceTypes.lookup deviceType).isSome then
    .ignoredUnsupported
  else if 0x7530 ≤ deviceType ∧ deviceType ≤ 0x7918 then
    .ignoredOEMRange
  else if (rmDeviceTypes.lookup deviceType).isNone ∨
      (rmPlusDeviceTypes.lookup deviceType).isNone then
    .ignoredUnknown
  else
    .added (rfCapable deviceType)

/-- The three coarse outcomes the specification distinguishes. -/
inductive SpecOutcome where
  | rejected
  | accepted (rf : Bool)
  | ignoredWithDiagnostic
  deriving DecidableEq, Repr

/-- Coarsening of a classification result to the specification's vocabulary:
both the exact-table rejection and the OEM-range rejection are "rejected";
an unknown id is "ignored with a diagnostic". -/
def toSpecOutcome : AddDeviceResult → SpecOutcome
  | .ignoredUnsupported => .rejected
  | .ignoredOEMRange => .rejected
  | .ignoredUnknown => .ignoredWithDiagnostic
  | .added rf => .accepted rf

/-- Modelled from the spec: the claimed classification, written exactly in
the claim's order of tests — an id in the unsupported exact-match table or
in `[0x7530, 0x7918]` is rejected; an id present in a supported table is
accepted (RF-capable iff it is in the RF table); any other id is ignored
with a diagnostic. -/
def specClassify (deviceType : Nat) : SpecOutcome :=
  if (unsupportedDeviceTypes.lookup deviceType).isSome ∨
      (0x7530 ≤ deviceType ∧ deviceType ≤ 0x7918) then
    .rejected
  else if (rmDeviceTypes.lookup deviceType).isSome ∨
      (rmPlusDeviceTypes.lookup deviceType).isSome then
    .accepted (rmPlusDeviceTypes.lookup deviceType).isSome
  else
    .ignoredWithDiagnostic

/-- The 6-byte device identity assembled by `onMessage` from the reversed,
non-contiguous byte offsets of a discovery reply (missing bytes of a short
reply stay 0, as with `Buffer.alloc(6, 0)` and a clipped `copy`). -/
def extractMac (message : List Nat) : List Nat :=
  [message.getD 0x3D 0, message.getD 0x3E 0, message.getD 0x3F 0,
   message.getD 0x3C 0, message.getD 0x3B 0, message.getD 0x3A 0]

/-- The 16-bit little-endian device type id read by `onMessage`:
`message[0x34] | (message[0x35] << 8)`. -/
def deviceTypeOf (message : List Nat) : Nat :=
  Nat.lor (message.getD 0x34 0) (Nat.shiftLeft (message.getD 0x35 0) 8)

/-- The identity-to-session registry `this.devices`, keyed by the identity
bytes; the stored value stands for the created `BroadlinkDevice` (recorded
here by its device type). -/
abbrev Registry := List (List Nat × Nat)

/-- `Broadlink.addDevice`: re-check the registry, classify the type id and
register a new session only when the type is supported. -/
def addDevice (devices : Registry) (mac : List Nat) (deviceType : Nat) :
    Registry :=
  if (devices.lookup mac).isSome then devices
  else match addDeviceClassify deviceType with
    | .added _ => (mac, deviceType) :: devices
    | _ => devices

/-- `Broadlink.onMessage`: extract the identity, return unchanged (flag
`false`) when the identity is already registered, and otherwise hand over to
`addDevice` (flag `true` records that classification was reached). -/
def onMessage (devices : Registry) (message : List Nat) : Registry × Bool :=
  let mac := extractMac message
  if (devices.lookup mac).isSome then (devices, false)
  else (addDevice devices mac (deviceTypeOf message), true)

/-- The field section of the 48-byte discovery packet built by
`Broadlink.onListening` (everything before the checksum is stored), as a
function of the current local time fields, the local IPv4 octets and the
socket's ephemeral port.  `tz` is `getTimezoneOffset() / -3600` (a JS
number), `year` is `getFullYear() - 1900`. -/
def onListeningFields (tz : ℚ) (year minutes hours weekday date month
    ip0 ip1 ip2 ip3 port : Nat) : List Nat :=
  let packet := List.replicate 0x30 0
  let packet :=
    if tz < 0 then
      setB (setB (setB (setB packet 0x08 (jsToUint8 (0xff + tz - 1)))
        0x09 0xff) 0x0a 0xff) 0x0b 0xff
    else
      setB (setB (setB (setB packet 0x08 (jsToUint8 tz)) 0x09 0) 0x0a 0) 0x0b 0
  let packet := setB packet 0x0c (Nat.land year 0xff)
  let packet := setB packet 0x0d (year >>> 8)
  let packet := setB packet 0x0e minutes
  let packet := setB packet 0x0f hours
  let packet := setB packet 0x10 (year % 100)
  let packet := setB packet 0x11 weekday
  let packet := setB packet 0x12 date
  let packet := setB packet 0x13 month
  let packet := setB packet 0x18 ip0
  let packet := setB packet 0x19 ip1
  let packet := setB packet 0x1a ip2
  let packet := setB packet 0x1b ip3
  let packet := setB packet 0x1c (Nat.land port 0xff)
  let packet := setB packet 0x1d (port >>> 8)
  setB packet 0x26 6

/-- The transmitted discovery packet: the fields above, then the checksum
loop (over the packet with its checksum cells still zero), stored
little-endian at 0x20-0x21. -/
def onListening (tz : ℚ) (year minutes hours weekday date month
    ip0 ip1 ip2 ip3 port : Nat) : List Nat :=
  let packet := onListeningFields tz year minutes hours weekday date month
    ip0 ip1 ip2 ip3 port
  let checksum := checksumSumThenMask packet
  setB (setB packet 0x20 (Nat.land checksum 0xff)) 0x21 (checksum >>> 8)

/-- Per-session state of a `BroadlinkDevice`. -/
structure DeviceState where
  type : Nat
  mac : List Nat
  count : Nat
  key : List Nat
  iv : List Nat
  id : List Nat
  deriving DecidableEq, Repr

/-- The pre-shared constant initial key of the constructor. -/
def initialKey : List Nat :=
  [0x09, 0x76, 0x28, 0x34, 0x3f, 0xe9, 0x9e, 0x23,
   0x76, 0x5c, 0x15, 0x13, 0xac, 0xcf, 0x8b, 0x02]

/-- The pre-shared constant initialization vector of the constructor. -/
def initialIv : List Nat :=
  [0x56, 0x2e, 0x17, 0x99, 0x6d, 0x09, 0x3d, 0x28,
   0xdd, 0xb3, 0xba, 0x69, 0x5a, 0x2e, 0x6f, 0x58]

/-- `this.count = Math.random() & 0xffff` of the constructor: the JS bitwise
`&` applies `ToInt32` to both operands; `r` is the value drawn from
`Math.random()`. -/
def constructorCount (r : ℚ) : Int := Int.land (jsToInt32 r) (jsToInt32 0xffff)

/-- The `BroadlinkDevice` constructor (socket creation aside): fixed key,
IV and id, and a sequence counter computed from one `Math.random()` draw. -/
def broadlinkDeviceInit (mac : List Nat) (type : Nat) (r : ℚ) : DeviceState :=
  { type := type, mac := mac, count := (constructorCount r).toNat,
    key := initialKey, iv := initialIv, id := [0, 0, 0, 0] }

/-- The sequence-counter update performed at the top of `sendPacket`:
`this.count = (this.count + 1) & 0xffff`. -/
def countStep (c : Nat) : Nat := Nat.land (c + 1) 0xffff

/-- CBC encryption of the whole blocks of `data`, chaining from `prev`;
the trailing `data.length % 16` bytes are not processed — exactly what the
Node cipher object's `update` returns when `final` is never called.  `E` is
the abstract AES-128 block encryption for one key. -/
def cbcEncBlocks (E : List Nat → List Nat) (prev data : List Nat) : List Nat :=
  if _h : data.length < 16 then []
  else
    E (List.zipWith Nat.xor (data.take 16) prev)
      ++ cbcEncBlocks E (E (List.zipWith Nat.xor (data.take 16) prev))
          (data.drop 16)
termination_by data.length
decreasing_by simp [List.length_drop]; omega

/-- `createCipheriv('aes-128-cbc', key, iv)` followed by one
`cipher.update(payload)` (and no `cipher.final()`), for an abstract keyed
block cipher `E`. -/
def cipherUpdate (E : List Nat → List Nat → List Nat)
    (key iv data : List Nat) : List Nat :=
  cbcEncBlocks (E key) iv data

/-- The command packet before its whole-packet checksum is stored: the
0x38-byte header (magic bytes, command byte, counter, reversed identity
bytes, session id, payload checksum at 0x34-0x35) followed by the
ciphertext. -/
def sendPacketPre (count command : Nat) (mac id : List Nat)
    (payloadChecksum : Nat) (ciphertext : List Nat) : List Nat :=
  let packet := List.replicate 0x38 0
  let packet := setB packet 0x00 0x5a
  let packet := setB packet 0x01 0xa5
  let packet := setB packet 0x02 0xaa
  let packet := setB packet 0x03 0x55
  let packet := setB packet 0x04 0x5a
  let packet := setB packet 0x05 0xa5
  let packet := setB packet 0x06 0xaa
  let packet := setB packet 0x07 0x55
  let packet := setB packet 0x24 0x2a
  let packet := setB packet 0x25 0x27
  let packet := setB packet 0x26 command
  let packet := setB packet 0x28 (Nat.land count 0xff)
  let packet := setB packet 0x29 (count >>> 8)
  let packet := setB packet 0x2a (mac.getD 5 0)
  let packet := setB packet 0x2b (mac.getD 4 0)
  let packet := setB packet 0x2c (mac.getD 3 0)
  let packet := setB packet 0x2d (mac.getD 2 0)
  let packet := setB packet 0x2e (mac.getD 1 0)
  let packet := setB packet 0x2f (mac.getD 0 0)
  let packet := setB packet 0x30 (id.getD 0 0)
  let packet := setB packet 0x31 (id.getD 1 0)
  let packet := setB packet 0x32 (id.getD 2 0)
  let packet := setB packet 0x33 (id.getD 3 0)
  let packet := setB packet 0x34 (Nat.land payloadChecksum 0xff)
  let packet := setB packet 0x35 (payloadChecksum >>> 8)
  packet ++ ciphertext

/-- The packet transmitted by `sendPacket`: the pre-checksum packet (built
with the already-bumped counter) with the whole-packet checksum (computed
while the checksum cells are still zero) stored little-endian at
0x20-0x21. -/
def sendPacketBody (E : List Nat → List Nat → List Nat) (d : DeviceState)
    (command : Nat) (payload : List Nat) : List Nat :=
  let payloadChecksum := checksumFold payload
  let ciphertext := cipherUpdate E d.key d.iv payload
  let packet := sendPacketPre (countStep d.count) command d.mac d.id
    payloadChecksum ciphertext
  let checksum := checksumFold packet
  setB (setB packet 0x20 (Nat.land checksum 0xff)) 0x21 (checksum >>> 8)

/-- `BroadlinkDevice.sendPacket`: bump the counter
(`this.count = (this.count + 1) & 0xffff`), build and transmit the packet.
Returns the new session state and the transmitted packet. -/
def sendPacket (E : List Nat → List Nat → List Nat) (d : DeviceState)
    (command : Nat) (payload : List Nat) : DeviceState × List Nat :=
  ({ d with count := countStep d.count }, sendPacketBody E d command payload)

/-- The 16-byte zero-filled command payload with the operation code at
byte 0, shared by the command-dispatcher methods. -/
def commandPayload (op : Nat) : List Nat := setB (List.replicate 16 0) 0 op

/-- `checkData`: operation code 4 under the outer command byte 0x6a. -/
def checkData (E : List Nat → List Nat → List Nat) (d : DeviceState) :
    DeviceState × List Nat :=
  sendPacket E d 0x6a (commandPayload 4)

/-- `sendData`: the 4-byte send-code header `02 00 00 00` followed by the
raw learned-code bytes, under the outer command byte 0x6a. -/
def sendData (E : List Nat → List Nat → List Nat) (d : DeviceState)
    (data : List Nat) : DeviceState × List Nat :=
  sendPacket E d 0x6a ([0x02, 0x00, 0x00, 0x00] ++ data)

/-- `enterRFSweep`: refused locally on a device without RF capability
(no packet produced), otherwise operation code 0x19 is sent. -/
def enterRFSweep (E : List Nat → List Nat → List Nat) (d : DeviceState) :
    DeviceState × List (List Nat) :=
  if rfCapable d.type then
    let r := sendPacket E d 0x6a (commandPayload 0x19)
    (r.1, [r.2])
  else (d, [])

/-- `cancelRFSweep`: capability-guarded operation code 0x1e. -/
def cancelRFSweep (E : List Nat → List Nat → List Nat) (d : DeviceState) :
    DeviceState × List (List Nat) :=
  if rfCapable d.type then
    let r := sendPacket E d 0x6a (commandPayload 0x1e)
    (r.1, [r.2])
  else (d, [])

/-- `findRFPacket`: capability-guarded operation code 0x1b. -/
def findRFPacket (E : List Nat → List Nat → List Nat) (d : DeviceState) :
    DeviceState × List (List Nat) :=
  if rfCapable d.type then
    let r := sendPacket E d 0x6a (commandPayload 0x1b)
    (r.1, [r.2])
  else (d, [])

/-- `checkRFSweep`: capability-guarded operation code 0x1a. -/
def checkRFSweep (E : List Nat → List Nat → List Nat) (d : DeviceState) :
    DeviceState × List (List Nat) :=
  if rfCapable d.type then
    let r := sendPacket E d 0x6a (commandPayload 0x1a)
    (r.1, [r.2])
  else (d, [])

/-- The notifications a `BroadlinkDevice` emits to its listeners. -/
inductive DeviceEvent where
  | dataError (code : Nat)
  | deviceReady
  | temperature (value : ℚ)
  | data (bytes : List Nat)
  | sweep (success : Bool)
  | rfData (bytes : List Nat)
  | unknownCommand (command : Nat)
  deriving DecidableEq, Repr

/-- The new session key extracted by the handshake branch of `listen`:
`Buffer.alloc(0x10, 0)` receiving `payload.copy(this.key, 0, 0x04, 0x14)`,
i.e. the 16 payload bytes at offsets 0x04 through 0x13. -/
def handshakeKey (payload : List Nat) : List Nat :=
  (List.range 0x10).map (fun i => payload.getD (0x04 + i) 0)

/-- The new session id extracted by the handshake branch of `listen`:
the 4 payload bytes at offsets 0 through 3. -/
def handshakeId (payload : List Nat) : List Nat :=
  (List.range 0x04).map (fun i => payload.getD i 0)

/-- `onPayloadReceived`: dispatch on the first payload byte of a data
reply. -/
def onPayloadReceived (payload : List Nat) : List DeviceEvent :=
  let param := payload.getD 0 0
  if param = 1 then
    [.temperature ((((payload.getD 0x4 0) * 10 + payload.getD 0x5 0 : ℚ)) / 10)]
  else if param = 4 then
    [.data (payload.drop 4)]
  else if param = 26 then
    [.sweep (payload.getD 0x4 0 == 1)]
  else if param = 27 then
    [.rfData [payload.getD 0x4 0]]
  else []

/-- The message handler installed by `BroadlinkDevice.listen`.  `D` is the
abstract AES-128-CBC decryption (key, IV, ciphertext to plaintext); padding
is disabled and `decipher.final()` contributes nothing for block-aligned
input.  Returns the updated session state and the emitted notifications. -/
def listenOnMessage (D : List Nat → List Nat → List Nat → List Nat)
    (d : DeviceState) (response : List Nat) : DeviceState × List DeviceEvent :=
  let encryptedPayload := response.drop 0x38
  let err := Nat.lor (response.getD 0x22 0) (Nat.shiftLeft (response.getD 0x23 0) 8)
  if err ≠ 0 then (d, [.dataError err])
  else
    let payload := D d.key d.iv encryptedPayload
    let command := response.getD 0x26 0
    if command = 0xe9 then
      ({ d with key := handshakeKey payload, id := handshakeId payload },
       [.deviceReady])
    else if command = 0xee ∨ command = 0xef then
      (d, onPayloadReceived payload)
    else
      (d, [.unknownCommand command])

/-- Modelled from the spec: the session key the claim describes — a 16-byte
field holding "14 contiguous payload bytes taken from a fixed offset" `o`
(the other two bytes keep the zero fill of the fresh buffer). -/
def specHandshakeKey14 (o : Nat) (payload : List Nat) : List Nat :=
  (List.range 0x10).map (fun i => if i < 14 then payload.getD (o + i) 0 else 0)

/-- Whether any fixed offset within the payload produces, via the claim's
14-byte extraction, the key the code actually installs. -/
def specKeyMatchesSomeOffset (payload : List Nat) : Bool :=
  (List.range (payload.length + 1)).any
    (fun o => specHandshakeKey14 o payload == handshakeKey payload)

/-- Outcome of a `sweepFrequency` promise. -/
inductive SweepOutcome where
  | pending
  | resolved
  | rejectedNotSuccessful
  | rejectedTimedOut
  deriving DecidableEq, Repr

/-- Settling a promise: only a pending promise takes a new outcome; calling
`resolve`/`reject` on a settled promise is a no-op. -/
def sweepSettle (promises : List (Nat × SweepOutcome)) (t : Nat)
    (o : SweepOutcome) : List (Nat × SweepOutcome) :=
  promises.map (fun p => if p.1 = t ∧ p.2 = .pending then (p.1, o) else p)

/-- State of the sweep-frequency machinery of one session: the memoised
`sweepHandler`, the promises created so far (by token), the active 30-second
cancellation timers and 10-second poll timers (by the token of the
invocation that armed them), the registered `'sweep'` listeners (never
removed by the source), and the operation codes handed to `sendPacket`. -/
structure SweepMachine where
  rf : Bool
  handler : Option Nat
  nextToken : Nat
  promises : List (Nat × SweepOutcome)
  sweepTimers : List Nat
  pollTimers : List Nat
  listeners : List Nat
  sent : List Nat
  deriving DecidableEq, Repr

/-- A fresh session: no handler, no timers, no listeners. -/
def SweepMachine.initial (rf : Bool) : SweepMachine :=
  { rf := rf, handler := none, nextToken := 0, promises := [],
    sweepTimers := [], pollTimers := [], listeners := [], sent := [] }

/-- `sweepFrequency`: return the memoised pending promise if one exists;
otherwise create a promise, arm the 30-second timeout and the 10-second
poll, register a `'sweep'` listener and send enter-RF-sweep (which the
capability guard of `enterRFSweep` turns into a no-send on non-RF
devices). -/
def sweepFrequency (m : SweepMachine) : SweepMachine × Nat :=
  match m.handler with
  | some t => (m, t)
  | none =>
    let t := m.nextToken
    ({ m with
        handler := some t,
        nextToken := t + 1,
        promises := (t, .pending) :: m.promises,
        sweepTimers := t :: m.sweepTimers,
        pollTimers := t :: m.pollTimers,
        listeners := m.listeners ++ [t],
        sent := m.sent ++ (if m.rf then [0x19] else []) }, t)

/-- The body of one `'sweep'` listener (the closure registered by
invocation `t`): clear its own 30-second timer, reset `sweepHandler` and
settle its own promise (resolve on success, reject otherwise). -/
def sweepListenerRun (success : Bool) (acc : SweepMachine) (t : Nat) :
    SweepMachine :=
  { acc with
      sweepTimers := acc.sweepTimers.erase t,
      handler := none,
      promises := sweepSettle acc.promises t
        (if success then .resolved else .rejectedNotSuccessful) }

/-- A `'sweep'` notification: every registered listener runs in
registration order.  No listener is ever removed. -/
def fireSweepListeners (success : Bool) (m : SweepMachine) : SweepMachine :=
  m.listeners.foldl (sweepListenerRun success) m

/-- The 30-second timer of invocation `t` fires: send cancel-RF-sweep
(capability-guarded), reset `sweepHandler` and reject with a timeout
reason.  The listener registered by the invocation is left in place. -/
def sweepTimeoutFire (t : Nat) (m : SweepMachine) : SweepMachine :=
  if t ∈ m.sweepTimers then
    { m with
        sweepTimers := m.sweepTimers.erase t,
        sent := m.sent ++ (if m.rf then [0x1e] else []),
        handler := none,
        promises := sweepSettle m.promises t .rejectedTimedOut }
  else m

/-- The 10-second poll timer of invocation `t` fires: send check-RF-sweep
(capability-guarded); nothing else changes. -/
def sweepPollFire (t : Nat) (m : SweepMachine) : SweepMachine :=
  if t ∈ m.pollTimers then
    { m with
        pollTimers := m.pollTimers.erase t,
        sent := m.sent ++ (if m.rf then [0x1a] else []) }
  else m

/-- The event sources that can act on the sweep machinery. -/
inductive SweepEvent where
  | call
  | notify (success : Bool)
  | timeout (t : Nat)
  | poll (t : Nat)
  deriving DecidableEq, Repr

/-- One step of the sweep machinery. -/
def sweepStep : SweepEvent → SweepMachine → SweepMachine
  | .call, m => (sweepFrequency m).1
  | .notify s, m => fireSweepListeners s m
  | .timeout t, m => sweepTimeoutFire t m
  | .poll t, m => sweepPollFire t m

/-- Outcome of a `confirmFrequency` promise. -/
inductive ConfirmOutcome where
  | pending
  | resolvedWith (buf : List Nat)
  | rejectedTimedOut
  deriving DecidableEq, Repr

/-- Settling a confirm promise (settled promises ignore later calls). -/
def confirmSettle (promises : List (Nat × ConfirmOutcome)) (t : Nat)
    (o : ConfirmOutcome) : List (Nat × ConfirmOutcome) :=
  promises.map (fun p => if p.1 = t ∧ p.2 = .pending then (p.1, o) else p)

/-- State of the confirm-frequency machinery of one session, mirroring
`SweepMachine`: `confirmHandler`, promises, 10-second data timeout timers,
5-second `checkData` poll timers, `'data'` listeners, sent op codes. -/
structure ConfirmMachine where
  rf : Bool
  handler : Option Nat
  nextToken : Nat
  promises : List (Nat × ConfirmOutcome)
  dataTimers : List Nat
  pollTimers : List Nat
  listeners : List Nat
  sent : List Nat
  deriving DecidableEq, Repr

/-- A fresh session: no handler, no timers, no listeners. -/
def ConfirmMachine.initial (rf : Bool) : ConfirmMachine :=
  { rf := rf, handler := none, nextToken := 0, promises := [],
    dataTimers := [], pollTimers := [], listeners := [], sent := [] }

/-- `confirmFrequency`: return the memoised pending promise if one exists;
otherwise create a promise, arm the 10-second timeout and the 5-second
poll, register a `'data'` listener and send find-RF-packet
(capability-guarded). -/
def confirmFrequency (m : ConfirmMachine) : ConfirmMachine × Nat :=
  match m.handler with
  | some t => (m, t)
  | none =>
    let t := m.nextToken
    ({ m with
        handler := some t,
        nextToken := t + 1,
        promises := (t, .pending) :: m.promises,
        dataTimers := t :: m.dataTimers,
        pollTimers := t :: m.pollTimers,
        listeners := m.listeners ++ [t],
        sent := m.sent ++ (if m.rf then [0x1b] else []) }, t)

/-- The body of one `'data'` listener (the closure registered by
invocation `t`): clear its own 10-second timer, reset `confirmHandler` and
resolve its own promise with the exact bytes received. -/
def dataListenerRun (buf : List Nat) (acc : ConfirmMachine) (t : Nat) :
    ConfirmMachine :=
  { acc with
      dataTimers := acc.dataTimers.erase t,
      handler := none,
      promises := confirmSettle acc.promises t (.resolvedWith buf) }

/-- A `'data'` notification carrying `buf`: every registered listener runs
in registration order.  No listener is ever removed. -/
def fireDataListeners (buf : List Nat) (m : ConfirmMachine) : ConfirmMachine :=
  m.listeners.foldl (dataListenerRun buf) m

/-- The 10-second data timeout of invocation `t` fires: reset
`confirmHandler` and reject with a timeout reason. -/
def confirmTimeoutFire (t : Nat) (m : ConfirmMachine) : ConfirmMachine :=
  if t ∈ m.dataTimers then
    { m with
        dataTimers := m.dataTimers.erase t,
        handler := none,
        promises := confirmSettle m.promises t .rejectedTimedOut }
  else m

/-- The 5-second poll timer of invocation `t` fires: `checkData` is sent
unconditionally (it carries no capability guard). -/
def confirmPollFire (t : Nat) (m : ConfirmMachine) : ConfirmMachine :=
  if t ∈ m.pollTimers then
    { m with pollTimers := m.pollTimers.erase t, sent := m.sent ++ [4] }
  else m

/-- The event sources that can act on the confirm machinery. -/
inductive ConfirmEvent where
  | call
  | notify (buf : List Nat)
  | timeout (t : Nat)
  | poll (t : Nat)
  deriving DecidableEq, Repr

/-- One step of the confirm machinery. -/
def confirmStep : ConfirmEvent → ConfirmMachine → ConfirmMachine
  | .call, m => (confirmFrequency m).1
  | .notify buf, m => fireDataListeners buf m
  | .timeout t, m => confirmTimeoutFire t m
  | .poll t, m => confirmPollFire t m

/-- A concrete discovery reply advertising device type 0x2737 (used as a
witness input). -/
def msgEx : List Nat :=
  setB (setB (List.replicate 0x40 1) 0x34 0x37) 0x35 0x27

/-- A concrete handshake payload (bytes 0, 1, 2, ...) used to exhibit the
16-byte key extraction. -/
def payloadEx : List Nat := List.range 0x14

/-- A concrete handshake reply: an error-free header with command byte 0xe9
followed by `payloadEx` as ciphertext. -/
def respEx : List Nat := setB (List.replicate 0x38 0) 0x26 0xe9 ++ payloadEx

end BroadlinkRM

namespace BroadlinkRM

/-- No device type id appears in both supported tables. -/
theorem disjoint_rm_tables (t : Nat) (h1 : ¬ rmDeviceTypes.lookup t = none)
    (h2 : ¬ rmPlusDeviceTypes.lookup t = none) : False := by
  have h1 := List.lookup_isSome_iff.mp (Option.isSome_iff_ne_none.mpr h1)
  have h2 := List.lookup_isSome_iff.mp (Option.isSome_iff_ne_none.mpr h2)
  simp [rmDeviceTypes, rmPlusDeviceTypes] at h1 h2
  rcases h1 with h1 | h1 | h1 | h1 | h1 | h1 | h1 | h1 | h1 | h1 <;>
    rcases h2 with h2 | h2 | h2 | h2 | h2 | h2 | h2 | h2 | h2 <;> omega

/-- Claim C1: in the current library source, `addDevice` classifies every
type id as the specification states (taking both rejection branches as
"rejected"), and in particular 0x2737 is accepted without RF, 0x272a is
accepted with RF, 0x7600 falls in the rejected OEM range, 0 is rejected via
the unsupported table and 0xFFFF is ignored with a diagnostic; the older
`src/index.ts` variant instead classifies the supported ids 0x2737 and
0x272a as unknown (its unknown-type test uses a disjunction), so there every
device type is refused. -/
theorem addDevice_classification :
    (∀ t : Nat, toSpecOutcome (addDeviceClassify t) = specClassify t) ∧
    addDeviceClassify 0x2737 = .added false ∧
    addDeviceClassify 0x272a = .added true ∧
    addDeviceClassify 0x7600 = .ignoredOEMRange ∧
    addDeviceClassify 0 = .ignoredUnsupported ∧
    addDeviceClassify 0xFFFF = .ignoredUnknown ∧
    addDeviceClassifyIndex 0x2737 = .ignoredUnknown ∧
    addDeviceClassifyIndex 0x272a = .ignoredUnknown ∧
    (∀ t : Nat, addDeviceClassifyIndex t ≠ .added true ∧
      addDeviceClassifyIndex t ≠ .added false) := by
  refine ⟨?_, by decide, by decide, by decide, by decide, by decide,
    by decide, by decide, ?_⟩
  · intro t
    by_cases h1 : (unsupportedDeviceTypes.lookup t).isSome <;>
      by_cases h2 : 0x7530 ≤ t ∧ t ≤ 0x7918 <;>
      by_cases h3 : (rmDeviceTypes.lookup t) = none <;>
      by_cases h4 : (rmPlusDeviceTypes.lookup t) = none <;>
      simp [addDeviceClassify, specClassify, toSpecOutcome, rfCapable,
        Option.isNone_iff_eq_none, Option.isSome_iff_ne_none, h1, h2, h3, h4]
  · intro t
    by_cases h1 : (unsupportedDeviceTypes.lookup t).isSome <;>
      by_cases h2 : 0x7530 ≤ t ∧ t ≤ 0x7918 <;>
      by_cases h3 : (rmDeviceTypes.lookup t) = none <;>
      by_cases h4 : (rmPlusDeviceTypes.lookup t) = none <;>
      simp [addDeviceClassifyIndex, Option.isNone_iff_eq_none, h1, h2, h3, h4]
    exact disjoint_rm_tables t (by simpa using h3) (by simpa using h4)

end BroadlinkRM

namespace BroadlinkRM

/-- Claim C6: a discovery reply whose extracted identity is already
registered leaves the registry untouched and never reaches classification;
two replies with equal identities starting from an empty registry create
exactly one session when the first is accepted, the second being ignored
before classification; and `onMessage` preserves distinctness of the
registry keys, so each identity maps to at most one session. -/
theorem discovery_identity_dedup :
    (∀ (devices : Registry) (message : List Nat),
        (devices.lookup (extractMac message)).isSome →
        onMessage devices message = (devices, false)) ∧
    (∀ (m1 m2 : List Nat) (rf : Bool), extractMac m1 = extractMac m2 →
        addDeviceClassify (deviceTypeOf m1) = .added rf →
        (onMessage (onMessage [] m1).1 m2).1
            = [(extractMac m1, deviceTypeOf m1)] ∧
        (onMessage (onMessage [] m1).1 m2).2 = false) ∧
    (∀ (devices : Registry) (message : List Nat),
        (devices.map Prod.fst).Nodup →
        ((onMessage devices message).1.map Prod.fst).Nodup) := by
  refine ⟨?_, ?_, ?_⟩
  · intro devices message h
    simp [onMessage, h]
  · intro m1 m2 rf he hc
    have h1 : (onMessage [] m1).1 = [(extractMac m1, deviceTypeOf m1)] := by
      simp [onMessage, addDevice, hc]
    rw [h1, he]
    constructor <;> simp [onMessage, List.lookup_cons_self]
  · intro devices message hn
    by_cases h : (devices.lookup (extractMac message)).isSome
    · simpa [onMessage, h] using hn
    · have hnone : devices.lookup (extractMac message) = none :=
        Option.not_isSome_iff_eq_none.mp h
      have hkeys := List.lookup_eq_none_iff.mp hnone
      cases hc : addDeviceClassify (deviceTypeOf message) with
      | added rf =>
        simp only [onMessage, addDevice, hnone, hc, Option.isSome_none,
          Bool.false_eq_true, if_false, List.map_cons, List.nodup_cons]
        refine ⟨?_, hn⟩
        intro hmem
        obtain ⟨p, hp, hfst⟩ := List.mem_map.mp hmem
        have := hkeys p hp
        simp [hfst] at this
      | ignoredUnsupported => simpa [onMessage, addDevice, hnone, hc] using hn
      | ignoredOEMRange => simpa [onMessage, addDevice, hnone, hc] using hn
      | ignoredUnknown => simpa [onMessage, addDevice, hnone, hc] using hn

end BroadlinkRM

namespace BroadlinkRM

/-- Witness for C6 at a concrete reply advertising type 0x2737: processing
it twice registers exactly one session and the second pass never reaches
classification. -/
theorem discovery_identity_dedup_witness :
    (onMessage (onMessage [] msgEx).1 msgEx).1
        = [(extractMac msgEx, deviceTypeOf msgEx)] ∧
    (onMessage (onMessage [] msgEx).1 msgEx).2 = false :=
  discovery_identity_dedup.2.1 msgEx msgEx false rfl (by decide)

end BroadlinkRM

namespace BroadlinkRM

/-- `n & 0xffff` is reduction modulo 2^16. -/
theorem land_ffff (n : Nat) : Nat.land n 0xffff = n % 65536 := by
  have h := Nat.and_pow_two_sub_one_eq_mod n 16
  norm_num at h
  exact h

/-- `n & 0xff` is reduction modulo 2^8. -/
theorem land_ff (n : Nat) : Nat.land n 0xff = n % 256 := by
  have h := Nat.and_pow_two_sub_one_eq_mod n 8
  norm_num at h
  exact h

/-- Folding with a 16-bit mask at every step agrees with summing first. -/
theorem foldl_mod (l : List Nat) (s : Nat) (hs : s < 65536) :
    l.foldl (fun c b => (c + b) % 65536) s = (s + l.sum) % 65536 := by
  induction l generalizing s with
  | nil => simpa using (Nat.mod_eq_of_lt hs).symm
  | cons b t ih =>
    rw [List.foldl_cons, ih _ (Nat.mod_lt _ (by norm_num)), List.sum_cons]
    rw [Nat.mod_add_mod]
    ring_nf

/-- The `sendPacket` checksum loop computes the reference checksum. -/
theorem checksumFold_eq (l : List Nat) : checksumFold l = wrapChecksum l := by
  unfold checksumFold wrapChecksum
  exact foldl_mod l 0xbeaf (by norm_num)

/-- The `onListening` checksum loop computes the reference checksum. -/
theorem checksumSumThenMask_eq (l : List Nat) :
    checksumSumThenMask l = wrapChecksum l := by
  unfold checksumSumThenMask wrapChecksum
  exact land_ffff _

/-- Overwriting a zero byte with zero is the identity. -/
theorem set_zero_self (l : List Nat) (i : Nat) (h : l.getD i 0 = 0) :
    l.set i 0 = l := by
  by_cases hi : i < l.length
  · apply List.ext_getElem?
    intro j
    rw [List.getElem?_set]
    split_ifs with h1
    · subst h1
      rw [List.getD_eq_getElem?_getD] at h
      cases hj : l[i]? with
      | none => exact absurd (List.getElem?_eq_none_iff.mp hj) (by omega)
      | some v =>
        rw [hj] at h
        simp at h
        rw [h]
    · rfl
  · exact List.set_eq_of_length_le (by omega)

/-- Storing the 16-bit checksum of a packet (whose checksum cells are still
zero) little-endian at 0x20-0x21 satisfies the roundtrip property: summing
the transmitted packet with those cells zeroed again reproduces the stored
value. -/
theorem store_checksum_spec (pre : List Nat) (c : Nat)
    (h20 : pre.getD 0x20 0 = 0) (h21 : pre.getD 0x21 0 = 0)
    (hlen : 0x22 ≤ pre.length) (hc : c = wrapChecksum pre) :
    wrapChecksum (((setB (setB pre 0x20 (Nat.land c 0xff)) 0x21 (c >>> 8)).set
        0x20 0).set 0x21 0)
      = (setB (setB pre 0x20 (Nat.land c 0xff)) 0x21 (c >>> 8)).getD 0x20 0
        + 256 * (setB (setB pre 0x20 (Nat.land c 0xff)) 0x21 (c >>> 8)).getD
            0x21 0 := by
  have hcb : c < 65536 := by
    rw [hc]; exact Nat.mod_lt _ (by norm_num)
  set a := Nat.land c 0xff % 256 with hadef
  set b := (c >>> 8) % 256 with hbdef
  have ha : a = c % 256 := by rw [hadef, land_ff]; omega
  have hb : b = c / 256 := by
    rw [hbdef, Nat.shiftRight_eq_div_pow]
    norm_num
    omega
  have hz : (((pre.set 0x20 a).set 0x21 b).set 0x20 0).set 0x21 0 = pre := by
    rw [List.set_comm a b pre (by omega)]
    rw [List.set_set]
    rw [List.set_comm b 0 pre (by omega)]
    rw [List.set_set]
    rw [set_zero_self pre 0x20 h20, set_zero_self pre 0x21 h21]
  have hga : ((pre.set 0x20 a).set 0x21 b).getD 0x20 0 = a := by
    rw [List.getD_eq_getElem?_getD, List.getElem?_set_ne (by omega),
      List.getElem?_set_self (by omega)]
    rfl
  have hgb : ((pre.set 0x20 a).set 0x21 b).getD 0x21 0 = b := by
    rw [List.getD_eq_getElem?_getD,
      List.getElem?_set_self (by rw [List.length_set]; omega)]
    rfl
  show wrapChecksum ((((pre.set 0x20 a).set 0x21 b).set 0x20 0).set 0x21 0)
      = ((pre.set 0x20 a).set 0x21 b).getD 0x20 0
        + 256 * ((pre.set 0x20 a).set 0x21 b).getD 0x21 0
  rw [hz, hga, hgb, ha, hb, ← hc]
  omega

/-- A `setB` write keeps the buffer length. -/
theorem length_setB (l : List Nat) (i v : Nat) : (setB l i v).length = l.length := by
  simp [setB]

/-- Reading a buffer after a `setB` write. -/
theorem getD_setB (l : List Nat) (i j v : Nat) :
    (setB l i v).getD j 0 = if i = j ∧ i < l.length then v % 256
      else l.getD j 0 := by
  rw [setB, List.getD_eq_getElem?_getD, List.getElem?_set]
  by_cases h1 : i = j
  · subst h1
    by_cases h2 : i < l.length
    · simp [h2]
    · simp [h2, List.getD_eq_getElem?_getD, List.getElem?_eq_none (by omega :
        l.length ≤ i)]
  · simp [h1, List.getD_eq_getElem?_getD]

/-- Reading inside the left part of an appended buffer. -/
theorem getD_append_left (l r : List Nat) (j : Nat) (h : j < l.length) :
    (l ++ r).getD j 0 = l.getD j 0 := by
  rw [List.getD_eq_getElem?_getD, List.getD_eq_getElem?_getD,
    List.getElem?_append, if_pos h]

/-- Reading a fresh zero-filled buffer. -/
theorem getD_replicate_zero (n j : Nat) :
    (List.replicate n (0 : Nat)).getD j 0 = 0 := by
  rw [List.getD_eq_getElem?_getD, List.getElem?_replicate]
  split_ifs <;> rfl

/-- The checksum cells of the discovery field section are still zero, and
the section is 48 bytes long. -/
theorem onListeningFields_facts (tz : ℚ) (year minutes hours weekday date
    month ip0 ip1 ip2 ip3 port : Nat) :
    (onListeningFields tz year minutes hours weekday date month
      ip0 ip1 ip2 ip3 port).getD 0x20 0 = 0 ∧
    (onListeningFields tz year minutes hours weekday date month
      ip0 ip1 ip2 ip3 port).getD 0x21 0 = 0 ∧
    (onListeningFields tz year minutes hours weekday date month
      ip0 ip1 ip2 ip3 port).length = 0x30 := by
  unfold onListeningFields
  split_ifs <;>
    exact ⟨by
        rw [List.getD_eq_getElem?_getD]
        simp only [setB, List.getElem?_set, List.length_set,
          List.length_replicate, List.getElem?_replicate]
        norm_num,
      by
        rw [List.getD_eq_getElem?_getD]
        simp only [setB, List.getElem?_set, List.length_set,
          List.length_replicate, List.getElem?_replicate]
        norm_num,
      by simp [length_setB, List.length_replicate]⟩

end BroadlinkRM

namespace BroadlinkRM

/-- The checksum cells of the pre-checksum command packet are still zero,
and the packet is 0x38 header bytes plus the ciphertext. -/
theorem sendPacketPre_facts (count command : Nat) (mac id : List Nat)
    (payloadChecksum : Nat) (ciphertext : List Nat) :
    (sendPacketPre count command mac id payloadChecksum ciphertext).getD 0x20 0 = 0 ∧
    (sendPacketPre count command mac id payloadChecksum ciphertext).getD 0x21 0 = 0 ∧
    (sendPacketPre count command mac id payloadChecksum ciphertext).length
      = 0x38 + ciphertext.length := by
  refine ⟨?_, ?_, ?_⟩
  · unfold sendPacketPre
    rw [List.getD_eq_getElem?_getD]
    simp only [setB, List.getElem?_append, List.length_set,
      List.length_replicate, List.getElem?_set, List.getElem?_replicate]
    norm_num
  · unfold sendPacketPre
    rw [List.getD_eq_getElem?_getD]
    simp only [setB, List.getElem?_append, List.length_set,
      List.length_replicate, List.getElem?_set, List.getElem?_replicate]
    norm_num
  · unfold sendPacketPre
    simp [setB, List.length_append, List.length_set, List.length_replicate]
    omega

set_option maxHeartbeats 1600000 in
/-- The transmitted command packet, extracted from the `sendPacket` pair. -/
theorem sendPacket_snd (E : List Nat → List Nat → List Nat) (d : DeviceState)
    (command : Nat) (payload : List Nat) :
    (sendPacket E d command payload).2 = sendPacketBody E d command payload := by
  simp only [sendPacket]

/-- The new session state of a `sendPacket` call carries the bumped
counter. -/
theorem sendPacket_fst_count (E : List Nat → List Nat → List Nat)
    (d : DeviceState) (command : Nat) (payload : List Nat) :
    (sendPacket E d command payload).1.count = countStep d.count := by
  simp only [sendPacket]

/-- The transmitted command packet in store-checksum shape. -/
theorem sendPacketBody_eq (E : List Nat → List Nat → List Nat)
    (d : DeviceState) (command : Nat) (payload : List Nat) :
    sendPacketBody E d command payload
      = setB (setB (sendPacketPre (countStep d.count) command d.mac d.id
          (checksumFold payload) (cipherUpdate E d.key d.iv payload)) 0x20
          (Nat.land (checksumFold (sendPacketPre (countStep d.count) command
            d.mac d.id (checksumFold payload)
            (cipherUpdate E d.key d.iv payload))) 0xff)) 0x21
          ((checksumFold (sendPacketPre (countStep d.count) command d.mac
            d.id (checksumFold payload)
            (cipherUpdate E d.key d.iv payload))) >>> 8) := rfl

/-- The discovery packet in store-checksum shape. -/
theorem onListening_eq (tz : ℚ) (year minutes hours weekday date month
    ip0 ip1 ip2 ip3 port : Nat) :
    onListening tz year minutes hours weekday date month ip0 ip1 ip2 ip3 port
      = setB (setB (onListeningFields tz year minutes hours weekday date
          month ip0 ip1 ip2 ip3 port) 0x20
          (Nat.land (checksumSumThenMask (onListeningFields tz year minutes
            hours weekday date month ip0 ip1 ip2 ip3 port)) 0xff)) 0x21
          ((checksumSumThenMask (onListeningFields tz year minutes hours
            weekday date month ip0 ip1 ip2 ip3 port)) >>> 8) := rfl

/-- Claim C5: for the discovery packet built by `onListening` and for every
command packet built by `sendPacket`, recomputing the wraparound checksum
(seed 0xBEAF, 16-bit modulus) over the transmitted packet with the checksum
field at 0x20-0x21 zeroed reproduces the 16-bit little-endian value stored
at offsets 0x20-0x21. -/
theorem packet_checksum_roundtrip :
    (∀ (tz : ℚ) (year minutes hours weekday date month
        ip0 ip1 ip2 ip3 port : Nat),
      wrapChecksum (((onListening tz year minutes hours weekday date month
            ip0 ip1 ip2 ip3 port).set 0x20 0).set 0x21 0)
        = (onListening tz year minutes hours weekday date month
            ip0 ip1 ip2 ip3 port).getD 0x20 0
          + 256 * (onListening tz year minutes hours weekday date month
            ip0 ip1 ip2 ip3 port).getD 0x21 0) ∧
    (∀ (E : List Nat → List Nat → List Nat) (d : DeviceState)
        (command : Nat) (payload : List Nat),
      wrapChecksum ((((sendPacket E d command payload).2).set 0x20 0).set
          0x21 0)
        = (sendPacket E d command payload).2.getD 0x20 0
          + 256 * (sendPacket E d command payload).2.getD 0x21 0) := by
  constructor
  · intro tz year minutes hours weekday date month ip0 ip1 ip2 ip3 port
    have hf := onListeningFields_facts tz year minutes hours weekday date
      month ip0 ip1 ip2 ip3 port
    rw [onListening_eq]
    exact store_checksum_spec _ _ hf.1 hf.2.1 (by rw [hf.2.2]; norm_num)
      (checksumSumThenMask_eq _)
  · intro E d command payload
    have hf := sendPacketPre_facts (countStep d.count) command d.mac d.id
      (checksumFold payload) (cipherUpdate E d.key d.iv payload)
    rw [sendPacket_snd, sendPacketBody_eq]
    exact store_checksum_spec _ _ hf.1 hf.2.1 (by rw [hf.2.2]; omega)
      (checksumFold_eq _)

end BroadlinkRM

namespace BroadlinkRM

/-- The 16-bit little-endian sequence-number bytes of the pre-checksum
packet. -/
theorem sendPacketPre_seq_bytes (count command : Nat) (mac id : List Nat)
    (payloadChecksum : Nat) (ciphertext : List Nat) :
    (sendPacketPre count command mac id payloadChecksum ciphertext).getD
        0x28 0 = Nat.land count 0xff % 256 ∧
    (sendPacketPre count command mac id payloadChecksum ciphertext).getD
        0x29 0 = (count >>> 8) % 256 := by
  constructor <;>
    (unfold sendPacketPre
     rw [List.getD_eq_getElem?_getD]
     simp only [setB, List.getElem?_append, List.length_set,
       List.length_replicate, List.getElem?_set, List.getElem?_replicate]
     norm_num)

/-- Iterating the counter update needs one step to enter `[0, 65536)` and
then advances by one modulo 65536. -/
theorem countStep_iterate (n c : Nat) :
    countStep^[n + 1] c = (c + (n + 1)) % 65536 := by
  induction n with
  | zero =>
    simp [countStep, land_ffff]
  | succ k ih =>
    rw [Function.iterate_succ_apply', ih, countStep, land_ffff,
      Nat.mod_add_mod]
    ring_nf

/-- Claim C9: every `sendPacket` call sets the counter to the old value
plus one modulo 65536 before the packet is built (the packet's sequence
bytes at 0x28-0x29 encode the new value little-endian), the counter stays
below 65536, and 65536 sends return it to the start modulo 65536. -/
theorem sendPacket_seq_counter :
    (∀ (E : List Nat → List Nat → List Nat) (d : DeviceState)
        (command : Nat) (payload : List Nat),
      (sendPacket E d command payload).1.count = (d.count + 1) % 65536 ∧
      (sendPacket E d command payload).1.count < 65536 ∧
      (sendPacket E d command payload).2.getD 0x28 0
        = (sendPacket E d command payload).1.count % 256 ∧
      (sendPacket E d command payload).2.getD 0x29 0
        = (sendPacket E d command payload).1.count / 256) ∧
    (∀ c : Nat, countStep^[65536] c = c % 65536) := by
  constructor
  · intro E d command payload
    have e1 := sendPacket_fst_count E d command payload
    have hcs : countStep d.count = (d.count + 1) % 65536 := by
      rw [countStep, land_ffff]
    have hlt : countStep d.count < 65536 := by omega
    have hb := sendPacketPre_seq_bytes (countStep d.count) command d.mac d.id
      (checksumFold payload) (cipherUpdate E d.key d.iv payload)
    refine ⟨e1 ▸ hcs, e1 ▸ hlt, ?_, ?_⟩
    · rw [sendPacket_snd, sendPacketBody_eq, e1]
      rw [getD_setB, getD_setB]
      simp only [length_setB]
      norm_num
      rw [← List.getD_eq_getElem?_getD, hb.1, land_ff]
      omega
    · rw [sendPacket_snd, sendPacketBody_eq, e1]
      rw [getD_setB, getD_setB]
      simp only [length_setB]
      norm_num
      rw [← List.getD_eq_getElem?_getD, hb.2, Nat.shiftRight_eq_div_pow]
      norm_num
      omega
  · intro c
    rw [show (65536 : Nat) = 65535 + 1 from rfl, countStep_iterate]
    omega

end BroadlinkRM

namespace BroadlinkRM

/-- The CBC update of a 16-byte block cipher outputs exactly one block per
complete input block; the trailing `length % 16` bytes produce nothing. -/
theorem cbcEncBlocks_length_aux (E : List Nat → List Nat)
    (hE : ∀ b, (E b).length = 16) :
    ∀ (n : Nat) (prev data : List Nat), data.length ≤ n →
      (cbcEncBlocks E prev data).length = 16 * (data.length / 16) := by
  intro n
  induction n with
  | zero =>
    intro prev data hd
    rw [cbcEncBlocks]
    have h0 : data.length = 0 := by omega
    rw [dif_pos (by omega)]
    simp [h0]
  | succ k ih =>
    intro prev data hd
    rw [cbcEncBlocks]
    by_cases hlt : data.length < 16
    · rw [dif_pos hlt]
      have : data.length / 16 = 0 := by omega
      simp [this]
    · rw [dif_neg hlt]
      rw [List.length_append, hE, ih _ (data.drop 16) (by
        rw [List.length_drop]; omega)]
      rw [List.length_drop]
      omega

/-- The CBC update depends only on the 16-aligned prefix of the input: the
trailing bytes are never consumed. -/
theorem cbcEncBlocks_take_aux (E : List Nat → List Nat) :
    ∀ (n : Nat) (prev data : List Nat), data.length ≤ n →
      cbcEncBlocks E prev data
        = cbcEncBlocks E prev (data.take (16 * (data.length / 16))) := by
  intro n
  induction n with
  | zero =>
    intro prev data hd
    have h0 : data.length = 0 := by omega
    rw [cbcEncBlocks]
    rw [dif_pos (by omega)]
    rw [cbcEncBlocks]
    rw [dif_pos (by simp [List.length_take]; omega)]
  | succ k ih =>
    intro prev data hd
    by_cases hlt : data.length < 16
    · have h0 : data.length / 16 = 0 := by omega
      rw [h0, show 16 * 0 = 0 from rfl, List.take_zero]
      rw [cbcEncBlocks]
      rw [dif_pos hlt]
      rw [cbcEncBlocks]
      rw [dif_pos (by simp)]
    · have hm : 16 ≤ 16 * (data.length / 16) := by
        have : 1 ≤ data.length / 16 := by omega
        omega
      have htake : (data.take (16 * (data.length / 16))).take 16
          = data.take 16 := by
        rw [List.take_take]
        congr 1
        omega
      have hdrop : (data.take (16 * (data.length / 16))).drop 16
          = (data.drop 16).take (16 * ((data.drop 16).length / 16)) := by
        rw [List.drop_take]
        congr 1
        rw [List.length_drop]
        omega
      conv_lhs => rw [cbcEncBlocks]
      conv_rhs => rw [cbcEncBlocks]
      rw [dif_neg hlt]
      rw [dif_neg (show ¬ (data.take (16 * (data.length / 16))).length < 16 by
        rw [List.length_take]
        omega)]
      rw [htake, hdrop]
      congr 1
      exact ih _ (data.drop 16) (by rw [List.length_drop]; omega)

/-- Claim C10: a `sendPacket` ciphertext covers exactly the whole 16-byte
blocks of the payload — `16 * (payloadLength / 16)` bytes; the trailing
`payloadLength % 16` bytes are dropped (the ciphertext is a function of the
16-aligned prefix only, `cipher.final` never being called), and a
`sendData` whose code length is not congruent to 12 modulo 16 transmits an
encrypted payload strictly shorter than the 4-byte send-code header plus
the code. -/
theorem sendPacket_cipher_truncation :
    (∀ (E : List Nat → List Nat → List Nat) (key iv payload : List Nat),
      (∀ b, (E key b).length = 16) →
      (cipherUpdate E key iv payload).length = 16 * (payload.length / 16) ∧
      cipherUpdate E key iv payload
        = cipherUpdate E key iv (payload.take (16 * (payload.length / 16)))) ∧
    (∀ (E : List Nat → List Nat → List Nat) (d : DeviceState)
        (data : List Nat),
      (∀ b, (E d.key b).length = 16) →
      (sendData E d data).2.length = 0x38 + 16 * ((4 + data.length) / 16) ∧
      (data.length % 16 ≠ 12 →
        (sendData E d data).2.length < 0x38 + (4 + data.length))) := by
  constructor
  · intro E key iv payload hE
    exact ⟨cbcEncBlocks_length_aux (E key) hE payload.length iv payload
        le_rfl,
      cbcEncBlocks_take_aux (E key) payload.length iv payload le_rfl⟩
  · intro E d data hE
    have hsnd : (sendData E d data).2
        = sendPacketBody E d 0x6a ([0x02, 0x00, 0x00, 0x00] ++ data) := by
      rw [sendData, sendPacket_snd]
    have hlen : (sendData E d data).2.length
        = 0x38 + 16 * ((4 + data.length) / 16) := by
      rw [hsnd, sendPacketBody_eq]
      unfold setB
      rw [List.length_set, List.length_set]
      rw [(sendPacketPre_facts (countStep d.count) 0x6a d.mac d.id
        (checksumFold ([0x02, 0x00, 0x00, 0x00] ++ data))
        (cipherUpdate E d.key d.iv ([0x02, 0x00, 0x00, 0x00] ++ data))).2.2]
      rw [cipherUpdate]
      rw [cbcEncBlocks_length_aux (E d.key) hE
        ([0x02, 0x00, 0x00, 0x00] ++ data).length d.iv _ le_rfl]
      simp [List.length_append]
      omega
    refine ⟨hlen, fun hmod => ?_⟩
    rw [hlen]
    omega

end BroadlinkRM

namespace BroadlinkRM

/-- Witness for C10: with a constant 16-byte block cipher, a 20-byte
payload encrypts to one block, and `sendData` of a 3-byte code transmits a
0x38-byte header plus a single block covering only 16 of the 7 payload
bytes rounded down. -/
theorem sendPacket_cipher_truncation_witness :
    (cipherUpdate (fun _ _ => List.replicate 16 0) [] []
        (List.range 20)).length = 16 * ((List.range 20).length / 16) ∧
    (sendData (fun _ _ => List.replicate 16 0)
        (broadlinkDeviceInit [0, 0, 0, 0, 0, 0] 0x2737 0) [1, 2, 3]).2.length
      = 0x38 + 16 * ((4 + ([1, 2, 3] : List Nat).length) / 16) :=
  ⟨(sendPacket_cipher_truncation.1 (fun _ _ => List.replicate 16 0) [] []
      (List.range 20) (fun _ => rfl)).1,
   (sendPacket_cipher_truncation.2 (fun _ _ => List.replicate 16 0)
      (broadlinkDeviceInit [0, 0, 0, 0, 0, 0] 0x2737 0) [1, 2, 3]
      (fun _ => rfl)).1⟩

/-- Claim C8: every RF-only operation on a session whose device type is not
in the RF-capable table is refused locally — the session state (counter
included) is returned unchanged and no packet is produced. -/
theorem rf_ops_refused_locally (E : List Nat → List Nat → List Nat)
    (d : DeviceState) (h : rfCapable d.type = false) :
    enterRFSweep E d = (d, []) ∧ checkRFSweep E d = (d, []) ∧
    findRFPacket E d = (d, []) ∧ cancelRFSweep E d = (d, []) := by
  unfold enterRFSweep checkRFSweep findRFPacket cancelRFSweep
  simp [h]

/-- Witness for C8 on a freshly constructed non-RF session (type 0x2737). -/
theorem rf_ops_refused_locally_witness :
    rfCapable (broadlinkDeviceInit [0, 0, 0, 0, 0, 0] 0x2737 0).type
        = false ∧
    enterRFSweep (fun _ _ => [])
        (broadlinkDeviceInit [0, 0, 0, 0, 0, 0] 0x2737 0)
      = (broadlinkDeviceInit [0, 0, 0, 0, 0, 0] 0x2737 0, []) ∧
    checkRFSweep (fun _ _ => [])
        (broadlinkDeviceInit [0, 0, 0, 0, 0, 0] 0x2737 0)
      = (broadlinkDeviceInit [0, 0, 0, 0, 0, 0] 0x2737 0, []) :=
  have h := rf_ops_refused_locally (fun _ _ => [])
    (broadlinkDeviceInit [0, 0, 0, 0, 0, 0] 0x2737 0) (by decide)
  ⟨by decide, h.1, h.2.1⟩

/-- Claim C4 (code evaluation): `Math.random() & 0xffff` first coerces the
draw to a 32-bit integer, which truncates every value in `[0, 1)` to 0, so
the initial counter is 0 for every draw — the initialization is a constant
function of the random source. -/
theorem constructor_count_constant (r : ℚ) (h0 : 0 ≤ r) (h1 : r < 1) :
    constructorCount r = 0 ∧
    (∀ (mac : List Nat) (type : Nat),
      (broadlinkDeviceInit mac type r).count = 0) := by
  have hz : constructorCount r = 0 := by
    unfold constructorCount jsToInt32 jsTrunc
    rw [if_pos h0]
    rw [Int.floor_eq_zero_iff.mpr (by constructor <;> simpa)]
    decide
  exact ⟨hz, fun mac type => by simp [broadlinkDeviceInit, hz]⟩

/-- Witness for C4 at the draw 1/2. -/
theorem constructor_count_constant_witness :
    constructorCount (1 / 2) = 0 ∧
    (broadlinkDeviceInit [0, 0, 0, 0, 0, 0] 0x2737 (1 / 2)).count = 0 :=
  have h := constructor_count_constant (1 / 2) (by norm_num) (by norm_num)
  ⟨h.1, h.2 [0, 0, 0, 0, 0, 0] 0x2737⟩

end BroadlinkRM

namespace BroadlinkRM

/-- Reading the key installed by the handshake branch. -/
theorem handshakeKey_getD (payload : List Nat) (i : Nat) (h : i < 16) :
    (handshakeKey payload).getD i 0 = payload.getD (0x04 + i) 0 := by
  rw [handshakeKey, List.getD_eq_getElem?_getD, List.getElem?_map,
    List.getElem?_range]
  · rfl
  · exact h

/-- Reading the session id installed by the handshake branch. -/
theorem handshakeId_getD (payload : List Nat) (i : Nat) (h : i < 4) :
    (handshakeId payload).getD i 0 = payload.getD i 0 := by
  rw [handshakeId, List.getD_eq_getElem?_getD, List.getElem?_map,
    List.getElem?_range]
  · rfl
  · exact h

/-- Claim C2 (amended): on an error-free reply whose command byte is 0xe9,
the session replaces its key with the 16 contiguous payload bytes at
offsets 0x04 through 0x13 (not 14 bytes), its 16-byte key field being
filled entirely from the payload, replaces its session id with the 4
payload bytes at offset 0, and emits exactly the ready notification. -/
theorem handshake_reply_update (D : List Nat → List Nat → List Nat → List Nat)
    (d : DeviceState) (response : List Nat)
    (herr0 : response.getD 0x22 0 = 0) (herr1 : response.getD 0x23 0 = 0)
    (hcmd : response.getD 0x26 0 = 0xe9) :
    (∀ i, i < 16 → (listenOnMessage D d response).1.key.getD i 0
        = (D d.key d.iv (response.drop 0x38)).getD (0x04 + i) 0) ∧
    (listenOnMessage D d response).1.key.length = 16 ∧
    (∀ i, i < 4 → (listenOnMessage D d response).1.id.getD i 0
        = (D d.key d.iv (response.drop 0x38)).getD i 0) ∧
    (listenOnMessage D d response).2 = [DeviceEvent.deviceReady] := by
  have hstate : listenOnMessage D d response
      = ({ d with
            key := handshakeKey (D d.key d.iv (response.drop 0x38)),
            id := handshakeId (D d.key d.iv (response.drop 0x38)) },
         [DeviceEvent.deviceReady]) := by
    unfold listenOnMessage
    rw [herr0, herr1, hcmd]
    simp [handshakeKey, handshakeId]
    decide
  rw [hstate]
  refine ⟨?_, ?_, ?_, rfl⟩
  · intro i hi
    exact handshakeKey_getD _ i hi
  · simp [handshakeKey]
  · intro i hi
    exact handshakeId_getD _ i hi

/-- Witness for C2 on the concrete reply `respEx` decrypted with the
identity decipher: key byte 14 is payload byte 18 and the ready
notification is emitted. -/
theorem handshake_reply_update_witness :
    (listenOnMessage (fun _ _ ct => ct)
        (broadlinkDeviceInit [0, 0, 0, 0, 0, 0] 0x2737 0)
        respEx).1.key.getD 14 0
      = (respEx.drop 0x38).getD 18 0 ∧
    (listenOnMessage (fun _ _ ct => ct)
        (broadlinkDeviceInit [0, 0, 0, 0, 0, 0] 0x2737 0) respEx).2
      = [DeviceEvent.deviceReady] :=
  have h := handshake_reply_update (fun _ _ ct => ct)
    (broadlinkDeviceInit [0, 0, 0, 0, 0, 0] 0x2737 0) respEx
    (by decide) (by decide) (by decide)
  ⟨h.1 14 (by norm_num), h.2.2.2⟩

/-- Counterexample for C2 as stated: for the concrete handshake payload
`payloadEx` no fixed offset produces, via a 14-byte extraction padded into
the 16-byte key field, the key the code installs — the installed key has a
nonzero byte at position 14, which any 14-byte extraction leaves zero. -/
theorem handshake_key_not_14_bytes :
    specKeyMatchesSomeOffset payloadEx = false ∧
    (handshakeKey payloadEx).getD 14 0 = 18 ∧
    (handshakeKey payloadEx).length = 16 := by decide

end BroadlinkRM

namespace BroadlinkRM

/-- Unfolding `sweepSettle` over a cons cell. -/
theorem sweepSettle_cons (k : Nat) (v : SweepOutcome)
    (rest : List (Nat × SweepOutcome)) (u : Nat) (o2 : SweepOutcome) :
    sweepSettle ((k, v) :: rest) u o2
      = (if k = u ∧ v = .pending then (k, o2) else (k, v)) ::
        sweepSettle rest u o2 := rfl

/-- A settled promise ignores every later settle call. -/
theorem sweepSettle_preserve (ps : List (Nat × SweepOutcome)) (t u : Nat)
    (o o2 : SweepOutcome) (hl : ps.lookup t = some o) (hnp : o ≠ .pending) :
    (sweepSettle ps u o2).lookup t = some o := by
  induction ps with
  | nil => simp [List.lookup] at hl
  | cons p rest ih =>
    obtain ⟨k, v⟩ := p
    rw [List.lookup_cons] at hl
    rw [sweepSettle_cons]
    by_cases ht : t = k
    · simp [ht] at hl
      subst hl
      subst ht
      rw [if_neg (fun hc => hnp hc.2)]
      exact List.lookup_cons_self
    · have hbt : (t == k) = false := by simp [ht]
      rw [hbt] at hl
      by_cases hc : k = u ∧ v = SweepOutcome.pending
      · rw [if_pos hc]
        rw [List.lookup_cons, hbt]
        exact ih hl
      · rw [if_neg hc]
        rw [List.lookup_cons, hbt]
        exact ih hl

/-- Settling a pending promise installs the new outcome. -/
theorem sweepSettle_hit (ps : List (Nat × SweepOutcome)) (t : Nat)
    (o2 : SweepOutcome) (hl : ps.lookup t = some .pending) :
    (sweepSettle ps t o2).lookup t = some o2 := by
  induction ps with
  | nil => simp [List.lookup] at hl
  | cons p rest ih =>
    obtain ⟨k, v⟩ := p
    rw [List.lookup_cons] at hl
    rw [sweepSettle_cons]
    by_cases ht : t = k
    · simp [ht] at hl
      subst ht
      rw [if_pos ⟨rfl, hl⟩]
      exact List.lookup_cons_self
    · have hbt : (t == k) = false := by simp [ht]
      rw [hbt] at hl
      by_cases hc : k = t ∧ v = SweepOutcome.pending
      · exact absurd hc.1 (fun e => ht e.symm)
      · rw [if_neg hc]
        rw [List.lookup_cons, hbt]
        exact ih hl

/-- Settling one promise leaves every other promise alone. -/
theorem sweepSettle_other (ps : List (Nat × SweepOutcome)) (t u : Nat)
    (o2 : SweepOutcome) (hu : u ≠ t) :
    (sweepSettle ps u o2).lookup t = ps.lookup t := by
  induction ps with
  | nil => simp [sweepSettle]
  | cons p rest ih =>
    obtain ⟨k, v⟩ := p
    rw [sweepSettle_cons]
    by_cases hc : k = u ∧ v = SweepOutcome.pending
    · rw [if_pos hc]
      rw [List.lookup_cons, List.lookup_cons]
      have ht : (t == k) = false := by
        simp
        intro e
        exact hu (by omega)
      rw [ht]
      exact ih
    · rw [if_neg hc]
      rw [List.lookup_cons, List.lookup_cons]
      cases hbt : t == k with
      | true => rfl
      | false => exact ih

/-- Settling keeps the promise keys. -/
theorem sweepSettle_keys (ps : List (Nat × SweepOutcome)) (u : Nat)
    (o2 : SweepOutcome) :
    (sweepSettle ps u o2).map Prod.fst = ps.map Prod.fst := by
  induction ps with
  | nil => simp [sweepSettle]
  | cons p rest ih =>
    obtain ⟨k, v⟩ := p
    rw [sweepSettle_cons]
    by_cases hc : k = u ∧ v = SweepOutcome.pending
    · rw [if_pos hc]
      simpa using ih
    · rw [if_neg hc]
      simpa using ih

end BroadlinkRM

namespace BroadlinkRM

/-- Running any sequence of `'sweep'` listeners never changes a settled
promise. -/
theorem sweepRun_fold_preserve (s : Bool) (ls : List Nat)
    (acc : SweepMachine) (t : Nat) (o : SweepOutcome)
    (hl : acc.promises.lookup t = some o) (hnp : o ≠ .pending) :
    (ls.foldl (sweepListenerRun s) acc).promises.lookup t = some o := by
  induction ls generalizing acc with
  | nil => exact hl
  | cons u rest ih =>
    rw [List.foldl_cons]
    exact ih _ (sweepSettle_preserve _ _ _ _ _ hl hnp)

/-- Running listeners does not touch the listener list, the token counter,
the sent packets or the capability flag. -/
theorem sweepRun_fold_struct (s : Bool) (ls : List Nat) (acc : SweepMachine) :
    (ls.foldl (sweepListenerRun s) acc).listeners = acc.listeners ∧
    (ls.foldl (sweepListenerRun s) acc).nextToken = acc.nextToken ∧
    (ls.foldl (sweepListenerRun s) acc).sent = acc.sent ∧
    (ls.foldl (sweepListenerRun s) acc).rf = acc.rf := by
  induction ls generalizing acc with
  | nil => exact ⟨rfl, rfl, rfl, rfl⟩
  | cons u rest ih =>
    rw [List.foldl_cons]
    exact ih _

/-- Running listeners keeps the promise keys. -/
theorem sweepRun_fold_keys (s : Bool) (ls : List Nat) (acc : SweepMachine) :
    (ls.foldl (sweepListenerRun s) acc).promises.map Prod.fst
      = acc.promises.map Prod.fst := by
  induction ls generalizing acc with
  | nil => rfl
  | cons u rest ih =>
    rw [List.foldl_cons]
    rw [ih _]
    exact sweepSettle_keys _ _ _

/-- If the promise of a registered listener is pending when the `'sweep'`
notification arrives, running all listeners settles it according to the
success flag (and nothing can unsettle it afterwards). -/
theorem sweepRun_fold_hit (s : Bool) (ls : List Nat) (acc : SweepMachine)
    (t : Nat) (hmem : t ∈ ls)
    (hl : acc.promises.lookup t = some .pending) :
    (ls.foldl (sweepListenerRun s) acc).promises.lookup t
      = some (if s then .resolved else .rejectedNotSuccessful) := by
  induction ls generalizing acc with
  | nil => cases hmem
  | cons u rest ih =>
    rw [List.foldl_cons]
    by_cases hu : u = t
    · subst hu
      exact sweepRun_fold_preserve s rest _ u _ (sweepSettle_hit _ _ _ hl)
        (by split_ifs <;> simp)
    · have hmem' : t ∈ rest := by
        rcases List.mem_cons.mp hmem with h | h
        · exact absurd h.symm hu
        · exact h
      exact ih _ hmem' ((sweepSettle_other _ _ _ _ hu).trans hl)

/-- A token absent from the active timers stays absent while listeners
run. -/
theorem sweepRun_fold_count_zero (s : Bool) (ls : List Nat)
    (acc : SweepMachine) (t : Nat) (h : acc.sweepTimers.count t = 0) :
    (ls.foldl (sweepListenerRun s) acc).sweepTimers.count t = 0 := by
  induction ls generalizing acc with
  | nil => exact h
  | cons u rest ih =>
    rw [List.foldl_cons]
    refine ih _ ?_
    show (acc.sweepTimers.erase u).count t = 0
    by_cases hu : u = t
    · subst hu
      rw [List.count_erase_self]
      omega
    · rw [List.count_erase_of_ne (fun e => hu e.symm)]
      exact h

/-- The 30-second timer of a registered listener is cleared when the
`'sweep'` notification arrives. -/
theorem sweepRun_fold_timer_cleared (s : Bool) (ls : List Nat)
    (acc : SweepMachine) (t : Nat) (hmem : t ∈ ls)
    (hc : acc.sweepTimers.count t ≤ 1) :
    (ls.foldl (sweepListenerRun s) acc).sweepTimers.count t = 0 := by
  induction ls generalizing acc with
  | nil => cases hmem
  | cons u rest ih =>
    rw [List.foldl_cons]
    by_cases hu : u = t
    · subst hu
      refine sweepRun_fold_count_zero s rest _ u ?_
      show (acc.sweepTimers.erase u).count u = 0
      rw [List.count_erase_self]
      omega
    · have hmem' : t ∈ rest := by
        rcases List.mem_cons.mp hmem with h | h
        · exact absurd h.symm hu
        · exact h
      refine ih _ hmem' ?_
      show (acc.sweepTimers.erase u).count t ≤ 1
      rw [List.count_erase_of_ne (fun e => hu e.symm)]
      exact hc

end BroadlinkRM

namespace BroadlinkRM

/-- A successful lookup means the key is present. -/
theorem lookup_some_key_mem {β : Type} (ps : List (Nat × β)) (t : Nat) (o : β)
    (hl : ps.lookup t = some o) : t ∈ ps.map Prod.fst := by
  induction ps with
  | nil => simp [List.lookup] at hl
  | cons p rest ih =>
    obtain ⟨k, v⟩ := p
    rw [List.lookup_cons] at hl
    by_cases ht : t = k
    · simp [ht]
    · have hbt : (t == k) = false := by simp [ht]
      rw [hbt] at hl
      simp [ih hl]

/-- Key-preserving rewrites preserve the token bound. -/
theorem wf_of_keys_eq {β : Type} (ps ps' : List (Nat × β)) (n : Nat)
    (hk : ps'.map Prod.fst = ps.map Prod.fst)
    (hwf : ∀ p ∈ ps, p.1 < n) : ∀ p ∈ ps', p.1 < n := by
  intro p hp
  have hm : p.1 ∈ ps'.map Prod.fst := List.mem_map_of_mem _ hp
  rw [hk] at hm
  obtain ⟨q, hq, he⟩ := List.mem_map.mp hm
  exact he ▸ hwf q hq

/-- One event of any source leaves a settled sweep promise untouched and
keeps every promise token below the token counter. -/
theorem sweepStep_settled_stable (e : SweepEvent) (m : SweepMachine)
    (t : Nat) (o : SweepOutcome)
    (hwf : ∀ p ∈ m.promises, p.1 < m.nextToken)
    (hl : m.promises.lookup t = some o) (hnp : o ≠ .pending) :
    (sweepStep e m).promises.lookup t = some o ∧
    (∀ p ∈ (sweepStep e m).promises, p.1 < (sweepStep e m).nextToken) := by
  cases e with
  | call =>
    cases hh : m.handler with
    | some u =>
      have he : sweepStep SweepEvent.call m = m := by
        simp [sweepStep, sweepFrequency, hh]
      rw [he]
      exact ⟨hl, hwf⟩
    | none =>
      have he : sweepStep SweepEvent.call m
          = { m with
              handler := some m.nextToken,
              nextToken := m.nextToken + 1,
              promises := (m.nextToken, .pending) :: m.promises,
              sweepTimers := m.nextToken :: m.sweepTimers,
              pollTimers := m.nextToken :: m.pollTimers,
              listeners := m.listeners ++ [m.nextToken],
              sent := m.sent ++ (if m.rf then [0x19] else []) } := by
        simp [sweepStep, sweepFrequency, hh]
      rw [he]
      have htlt : t < m.nextToken := by
        have hmm := lookup_some_key_mem m.promises t o hl
        obtain ⟨q, hq, hee⟩ := List.mem_map.mp hmm
        exact hee ▸ hwf q hq
      have hbt : (t == m.nextToken) = false := by
        simp
        omega
      refine ⟨?_, ?_⟩
      · show List.lookup t ((m.nextToken, SweepOutcome.pending)
            :: m.promises) = some o
        rw [List.lookup_cons, hbt]
        exact hl
      · intro p hp
        have hp' : p ∈ (m.nextToken, SweepOutcome.pending) :: m.promises := hp
        show p.1 < m.nextToken + 1
        rcases List.mem_cons.mp hp' with h | h
        · rw [h]
          omega
        · have := hwf p h
          omega
  | notify s =>
    constructor
    · exact sweepRun_fold_preserve s m.listeners m t o hl hnp
    · have hk := sweepRun_fold_keys s m.listeners m
      have hn := (sweepRun_fold_struct s m.listeners m).2.1
      show ∀ p ∈ (m.listeners.foldl (sweepListenerRun s) m).promises,
        p.1 < (m.listeners.foldl (sweepListenerRun s) m).nextToken
      rw [hn]
      exact wf_of_keys_eq _ _ _ hk hwf
  | timeout u =>
    by_cases hmem : u ∈ m.sweepTimers
    · have he : sweepStep (SweepEvent.timeout u) m
          = { m with
              sweepTimers := m.sweepTimers.erase u,
              sent := m.sent ++ (if m.rf then [0x1e] else []),
              handler := none,
              promises := sweepSettle m.promises u .rejectedTimedOut } := by
        simp [sweepStep, sweepTimeoutFire, hmem]
      rw [he]
      exact ⟨sweepSettle_preserve _ _ _ _ _ hl hnp,
        wf_of_keys_eq _ _ _ (sweepSettle_keys _ _ _) hwf⟩
    · have he : sweepStep (SweepEvent.timeout u) m = m := by
        simp [sweepStep, sweepTimeoutFire, hmem]
      rw [he]
      exact ⟨hl, hwf⟩
  | poll u =>
    by_cases hmem : u ∈ m.pollTimers
    · have he : sweepStep (SweepEvent.poll u) m
          = { m with
              pollTimers := m.pollTimers.erase u,
              sent := m.sent ++ (if m.rf then [0x1a] else []) } := by
        simp [sweepStep, sweepPollFire, hmem]
      rw [he]
      exact ⟨hl, hwf⟩
    · have he : sweepStep (SweepEvent.poll u) m = m := by
        simp [sweepStep, sweepPollFire, hmem]
      rw [he]
      exact ⟨hl, hwf⟩

/-- No sequence of later events (calls, notifications, timer firings) can
change a settled sweep promise: the promise settles exactly once. -/
theorem sweepSteps_settled_stable (es : List SweepEvent) (m : SweepMachine)
    (t : Nat) (o : SweepOutcome)
    (hwf : ∀ p ∈ m.promises, p.1 < m.nextToken)
    (hl : m.promises.lookup t = some o) (hnp : o ≠ .pending) :
    (es.foldl (fun acc e => sweepStep e acc) m).promises.lookup t
      = some o := by
  induction es generalizing m with
  | nil => exact hl
  | cons e rest ih =>
    rw [List.foldl_cons]
    have h := sweepStep_settled_stable e m t o hwf hl hnp
    exact ih _ h.2 h.1

end BroadlinkRM

namespace BroadlinkRM

/-- Unfolding `confirmSettle` over a cons cell. -/
theorem confirmSettle_cons (k : Nat) (v : ConfirmOutcome)
    (rest : List (Nat × ConfirmOutcome)) (u : Nat) (o2 : ConfirmOutcome) :
    confirmSettle ((k, v) :: rest) u o2
      = (if k = u ∧ v = .pending then (k, o2) else (k, v)) ::
        confirmSettle rest u o2 := rfl

/-- A settled confirm promise ignores every later settle call. -/
theorem confirmSettle_preserve (ps : List (Nat × ConfirmOutcome)) (t u : Nat)
    (o o2 : ConfirmOutcome) (hl : ps.lookup t = some o)
    (hnp : o ≠ .pending) :
    (confirmSettle ps u o2).lookup t = some o := by
  induction ps with
  | nil => simp [List.lookup] at hl
  | cons p rest ih =>
    obtain ⟨k, v⟩ := p
    rw [List.lookup_cons] at hl
    rw [confirmSettle_cons]
    by_cases ht : t = k
    · simp [ht] at hl
      subst hl
      subst ht
      rw [if_neg (fun hc => hnp hc.2)]
      exact List.lookup_cons_self
    · have hbt : (t == k) = false := by simp [ht]
      rw [hbt] at hl
      by_cases hc : k = u ∧ v = ConfirmOutcome.pending
      · rw [if_pos hc]
        rw [List.lookup_cons, hbt]
        exact ih hl
      · rw [if_neg hc]
        rw [List.lookup_cons, hbt]
        exact ih hl

/-- Settling a pending confirm promise installs the new outcome. -/
theorem confirmSettle_hit (ps : List (Nat × ConfirmOutcome)) (t : Nat)
    (o2 : ConfirmOutcome) (hl : ps.lookup t = some .pending) :
    (confirmSettle ps t o2).lookup t = some o2 := by
  induction ps with
  | nil => simp [List.lookup] at hl
  | cons p rest ih =>
    obtain ⟨k, v⟩ := p
    rw [List.lookup_cons] at hl
    rw [confirmSettle_cons]
    by_cases ht : t = k
    · simp [ht] at hl
      subst ht
      rw [if_pos ⟨rfl, hl⟩]
      exact List.lookup_cons_self
    · have hbt : (t == k) = false := by simp [ht]
      rw [hbt] at hl
      by_cases hc : k = t ∧ v = ConfirmOutcome.pending
      · exact absurd hc.1 (fun e => ht e.symm)
      · rw [if_neg hc]
        rw [List.lookup_cons, hbt]
        exact ih hl

/-- Settling one confirm promise leaves every other promise alone. -/
theorem confirmSettle_other (ps : List (Nat × ConfirmOutcome)) (t u : Nat)
    (o2 : ConfirmOutcome) (hu : u ≠ t) :
    (confirmSettle ps u o2).lookup t = ps.lookup t := by
  induction ps with
  | nil => simp [confirmSettle]
  | cons p rest ih =>
    obtain ⟨k, v⟩ := p
    rw [confirmSettle_cons]
    by_cases hc : k = u ∧ v = ConfirmOutcome.pending
    · rw [if_pos hc]
      rw [List.lookup_cons, List.lookup_cons]
      have ht : (t == k) = false := by
        simp
        intro e
        exact hu (by omega)
      rw [ht]
      exact ih
    · rw [if_neg hc]
      rw [List.lookup_cons, List.lookup_cons]
      cases hbt : t == k with
      | true => rfl
      | false => exact ih

/-- Settling keeps the confirm promise keys. -/
theorem confirmSettle_keys (ps : List (Nat × ConfirmOutcome)) (u : Nat)
    (o2 : ConfirmOutcome) :
    (confirmSettle ps u o2).map Prod.fst = ps.map Prod.fst := by
  induction ps with
  | nil => simp [confirmSettle]
  | cons p rest ih =>
    obtain ⟨k, v⟩ := p
    rw [confirmSettle_cons]
    by_cases hc : k = u ∧ v = ConfirmOutcome.pending
    · rw [if_pos hc]
      simpa using ih
    · rw [if_neg hc]
      simpa using ih

/-- Running any sequence of `'data'` listeners never changes a settled
confirm promise. -/
theorem dataRun_fold_preserve (buf : List Nat) (ls : List Nat)
    (acc : ConfirmMachine) (t : Nat) (o : ConfirmOutcome)
    (hl : acc.promises.lookup t = some o) (hnp : o ≠ .pending) :
    (ls.foldl (dataListenerRun buf) acc).promises.lookup t = some o := by
  induction ls generalizing acc with
  | nil => exact hl
  | cons u rest ih =>
    rw [List.foldl_cons]
    exact ih _ (confirmSettle_preserve _ _ _ _ _ hl hnp)

/-- Running `'data'` listeners does not touch the listener list, the token
counter, the sent packets or the capability flag. -/
theorem dataRun_fold_struct (buf : List Nat) (ls : List Nat)
    (acc : ConfirmMachine) :
    (ls.foldl (dataListenerRun buf) acc).listeners = acc.listeners ∧
    (ls.foldl (dataListenerRun buf) acc).nextToken = acc.nextToken ∧
    (ls.foldl (dataListenerRun buf) acc).sent = acc.sent ∧
    (ls.foldl (dataListenerRun buf) acc).rf = acc.rf := by
  induction ls generalizing acc with
  | nil => exact ⟨rfl, rfl, rfl, rfl⟩
  | cons u rest ih =>
    rw [List.foldl_cons]
    exact ih _

/-- Running `'data'` listeners keeps the promise keys. -/
theorem dataRun_fold_keys (buf : List Nat) (ls : List Nat)
    (acc : ConfirmMachine) :
    (ls.foldl (dataListenerRun buf) acc).promises.map Prod.fst
      = acc.promises.map Prod.fst := by
  induction ls generalizing acc with
  | nil => rfl
  | cons u rest ih =>
    rw [List.foldl_cons]
    rw [ih _]
    exact confirmSettle_keys _ _ _

/-- If the promise of a registered listener is pending when the `'data'`
notification arrives, running all listeners resolves it with the exact
bytes received. -/
theorem dataRun_fold_hit (buf : List Nat) (ls : List Nat)
    (acc : ConfirmMachine) (t : Nat) (hmem : t ∈ ls)
    (hl : acc.promises.lookup t = some .pending) :
    (ls.foldl (dataListenerRun buf) acc).promises.lookup t
      = some (.resolvedWith buf) := by
  induction ls generalizing acc with
  | nil => cases hmem
  | cons u rest ih =>
    rw [List.foldl_cons]
    by_cases hu : u = t
    · subst hu
      exact dataRun_fold_preserve buf rest _ u _
        (confirmSettle_hit _ _ _ hl) (by simp)
    · have hmem' : t ∈ rest := by
        rcases List.mem_cons.mp hmem with h | h
        · exact absurd h.symm hu
        · exact h
      exact ih _ hmem' ((confirmSettle_other _ _ _ _ hu).trans hl)

/-- A token absent from the active data timers stays absent while the
`'data'` listeners run. -/
theorem dataRun_fold_count_zero (buf : List Nat) (ls : List Nat)
    (acc : ConfirmMachine) (t : Nat) (h : acc.dataTimers.count t = 0) :
    (ls.foldl (dataListenerRun buf) acc).dataTimers.count t = 0 := by
  induction ls generalizing acc with
  | nil => exact h
  | cons u rest ih =>
    rw [List.foldl_cons]
    refine ih _ ?_
    show (acc.dataTimers.erase u).count t = 0
    by_cases hu : u = t
    · subst hu
      rw [List.count_erase_self]
      omega
    · rw [List.count_erase_of_ne (fun e => hu e.symm)]
      exact h

/-- The 10-second data timer of a registered listener is cleared when the
`'data'` notification arrives. -/
theorem dataRun_fold_timer_cleared (buf : List Nat) (ls : List Nat)
    (acc : ConfirmMachine) (t : Nat) (hmem : t ∈ ls)
    (hc : acc.dataTimers.count t ≤ 1) :
    (ls.foldl (dataListenerRun buf) acc).dataTimers.count t = 0 := by
  induction ls generalizing acc with
  | nil => cases hmem
  | cons u rest ih =>
    rw [List.foldl_cons]
    by_cases hu : u = t
    · subst hu
      refine dataRun_fold_count_zero buf rest _ u ?_
      show (acc.dataTimers.erase u).count u = 0
      rw [List.count_erase_self]
      omega
    · have hmem' : t ∈ rest := by
        rcases List.mem_cons.mp hmem with h | h
        · exact absurd h.symm hu
        · exact h
      refine ih _ hmem' ?_
      show (acc.dataTimers.erase u).count t ≤ 1
      rw [List.count_erase_of_ne (fun e => hu e.symm)]
      exact hc

end BroadlinkRM

namespace BroadlinkRM

/-- One event of any source leaves a settled confirm promise untouched and
keeps every promise token below the token counter. -/
theorem confirmStep_settled_stable (e : ConfirmEvent) (m : ConfirmMachine)
    (t : Nat) (o : ConfirmOutcome)
    (hwf : ∀ p ∈ m.promises, p.1 < m.nextToken)
    (hl : m.promises.lookup t = some o) (hnp : o ≠ .pending) :
    (confirmStep e m).promises.lookup t = some o ∧
    (∀ p ∈ (confirmStep e m).promises, p.1 < (confirmStep e m).nextToken) := by
  cases e with
  | call =>
    cases hh : m.handler with
    | some u =>
      have he : confirmStep ConfirmEvent.call m = m := by
        simp [confirmStep, confirmFrequency, hh]
      rw [he]
      exact ⟨hl, hwf⟩
    | none =>
      have he : confirmStep ConfirmEvent.call m
          = { m with
              handler := some m.nextToken,
              nextToken := m.nextToken + 1,
              promises := (m.nextToken, .pending) :: m.promises,
              dataTimers := m.nextToken :: m.dataTimers,
              pollTimers := m.nextToken :: m.pollTimers,
              listeners := m.listeners ++ [m.nextToken],
              sent := m.sent ++ (if m.rf then [0x1b] else []) } := by
        simp [confirmStep, confirmFrequency, hh]
      rw [he]
      have htlt : t < m.nextToken := by
        have hmm := lookup_some_key_mem m.promises t o hl
        obtain ⟨q, hq, hee⟩ := List.mem_map.mp hmm
        exact hee ▸ hwf q hq
      have hbt : (t == m.nextToken) = false := by
        simp
        omega
      refine ⟨?_, ?_⟩
      · show List.lookup t ((m.nextToken, ConfirmOutcome.pending)
            :: m.promises) = some o
        rw [List.lookup_cons, hbt]
        exact hl
      · intro p hp
        have hp' : p ∈ (m.nextToken, ConfirmOutcome.pending)
            :: m.promises := hp
        show p.1 < m.nextToken + 1
        rcases List.mem_cons.mp hp' with h | h
        · rw [h]
          omega
        · have := hwf p h
          omega
  | notify buf =>
    constructor
    · exact dataRun_fold_preserve buf m.listeners m t o hl hnp
    · have hk := dataRun_fold_keys buf m.listeners m
      have hn := (dataRun_fold_struct buf m.listeners m).2.1
      show ∀ p ∈ (m.listeners.foldl (dataListenerRun buf) m).promises,
        p.1 < (m.listeners.foldl (dataListenerRun buf) m).nextToken
      rw [hn]
      exact wf_of_keys_eq _ _ _ hk hwf
  | timeout u =>
    by_cases hmem : u ∈ m.dataTimers
    · have he : confirmStep (ConfirmEvent.timeout u) m
          = { m with
              dataTimers := m.dataTimers.erase u,
              handler := none,
              promises := confirmSettle m.promises u .rejectedTimedOut } := by
        simp [confirmStep, confirmTimeoutFire, hmem]
      rw [he]
      exact ⟨confirmSettle_preserve _ _ _ _ _ hl hnp,
        wf_of_keys_eq _ _ _ (confirmSettle_keys _ _ _) hwf⟩
    · have he : confirmStep (ConfirmEvent.timeout u) m = m := by
        simp [confirmStep, confirmTimeoutFire, hmem]
      rw [he]
      exact ⟨hl, hwf⟩
  | poll u =>
    by_cases hmem : u ∈ m.pollTimers
    · have he : confirmStep (ConfirmEvent.poll u) m
          = { m with
              pollTimers := m.pollTimers.erase u,
              sent := m.sent ++ [4] } := by
        simp [confirmStep, confirmPollFire, hmem]
      rw [he]
      exact ⟨hl, hwf⟩
    · have he : confirmStep (ConfirmEvent.poll u) m = m := by
        simp [confirmStep, confirmPollFire, hmem]
      rw [he]
      exact ⟨hl, hwf⟩

/-- No sequence of later events can change a settled confirm promise: the
promise settles exactly once. -/
theorem confirmSteps_settled_stable (es : List ConfirmEvent)
    (m : ConfirmMachine) (t : Nat) (o : ConfirmOutcome)
    (hwf : ∀ p ∈ m.promises, p.1 < m.nextToken)
    (hl : m.promises.lookup t = some o) (hnp : o ≠ .pending) :
    (es.foldl (fun acc e => confirmStep e acc) m).promises.lookup t
      = some o := by
  induction es generalizing m with
  | nil => exact hl
  | cons e rest ih =>
    rw [List.foldl_cons]
    have h := confirmStep_settled_stable e m t o hwf hl hnp
    exact ih _ h.2 h.1

end BroadlinkRM

namespace BroadlinkRM

/-- Any `'sweep'` notification with at least one registered listener resets
`sweepHandler`. -/
theorem sweepRun_fold_handler (s : Bool) (ls : List Nat) (acc : SweepMachine)
    (h : ls ≠ []) : (ls.foldl (sweepListenerRun s) acc).handler = none := by
  induction ls generalizing acc with
  | nil => exact absurd rfl h
  | cons u rest ih =>
    rw [List.foldl_cons]
    by_cases hr : rest = []
    · subst hr
      rfl
    · exact ih _ hr

/-- Any `'data'` notification with at least one registered listener resets
`confirmHandler`. -/
theorem dataRun_fold_handler (buf : List Nat) (ls : List Nat)
    (acc : ConfirmMachine) (h : ls ≠ []) :
    (ls.foldl (dataListenerRun buf) acc).handler = none := by
  induction ls generalizing acc with
  | nil => exact absurd rfl h
  | cons u rest ih =>
    rw [List.foldl_cons]
    by_cases hr : rest = []
    · subst hr
      rfl
    · exact ih _ hr

/-- Claim C7: a `sweepFrequency` or `confirmFrequency` call while the
previous invocation is pending returns the machine unchanged with the
pending invocation's token (the identical memoised promise — in particular
no additional command is sent); a call on a session whose handler was reset
(as every settling path does: the notification run and the timeout both
clear it) creates a fresh token, memoises it, and sends the entry command
(capability-guarded). -/
theorem rf_pending_reuse :
    (∀ (m : SweepMachine) (t : Nat), m.handler = some t →
      sweepFrequency m = (m, t)) ∧
    (∀ m : SweepMachine, m.handler = none →
      (sweepFrequency m).2 = m.nextToken ∧
      (sweepFrequency m).1.handler = some m.nextToken ∧
      (sweepFrequency m).1.sent
        = m.sent ++ (if m.rf then [0x19] else [])) ∧
    (∀ (s : Bool) (m : SweepMachine), m.listeners ≠ [] →
      (fireSweepListeners s m).handler = none) ∧
    (∀ (u : Nat) (m : SweepMachine), u ∈ m.sweepTimers →
      (sweepTimeoutFire u m).handler = none) ∧
    (∀ (m : ConfirmMachine) (t : Nat), m.handler = some t →
      confirmFrequency m = (m, t)) ∧
    (∀ m : ConfirmMachine, m.handler = none →
      (confirmFrequency m).2 = m.nextToken ∧
      (confirmFrequency m).1.handler = some m.nextToken ∧
      (confirmFrequency m).1.sent
        = m.sent ++ (if m.rf then [0x1b] else [])) ∧
    (∀ (buf : List Nat) (m : ConfirmMachine), m.listeners ≠ [] →
      (fireDataListeners buf m).handler = none) ∧
    (∀ (u : Nat) (m : ConfirmMachine), u ∈ m.dataTimers →
      (confirmTimeoutFire u m).handler = none) := by
  refine ⟨?_, ?_, ?_, ?_, ?_, ?_, ?_, ?_⟩
  · intro m t h
    simp [sweepFrequency, h]
  · intro m h
    refine ⟨?_, ?_, ?_⟩ <;> simp [sweepFrequency, h]
  · intro s m h
    exact sweepRun_fold_handler s m.listeners m h
  · intro u m h
    unfold sweepTimeoutFire
    rw [if_pos h]
  · intro m t h
    simp [confirmFrequency, h]
  · intro m h
    refine ⟨?_, ?_, ?_⟩ <;> simp [confirmFrequency, h]
  · intro buf m h
    exact dataRun_fold_handler buf m.listeners m h
  · intro u m h
    unfold confirmTimeoutFire
    rw [if_pos h]

/-- Witness for C7: on a fresh RF session, the first `sweepFrequency` call
memoises token 0 and a second call returns the unchanged machine with the
same token; likewise for `confirmFrequency`. -/
theorem rf_pending_reuse_witness :
    sweepFrequency (sweepFrequency (SweepMachine.initial true)).1
      = ((sweepFrequency (SweepMachine.initial true)).1, 0) ∧
    confirmFrequency (confirmFrequency (ConfirmMachine.initial true)).1
      = ((confirmFrequency (ConfirmMachine.initial true)).1, 0) :=
  ⟨rf_pending_reuse.1 (sweepFrequency (SweepMachine.initial true)).1 0
      (by decide),
   rf_pending_reuse.2.2.2.2.1 (confirmFrequency (ConfirmMachine.initial
      true)).1 0 (by decide)⟩

end BroadlinkRM

namespace BroadlinkRM

/-- Claim C3 (amended): for each invocation the promise settles exactly
once — a `'sweep'`/`'data'` notification that runs the listeners clears
the invocation's timeout timer and settles its promise, and once settled
no later event of either completion source (notification, timeout, call or
poll) changes the outcome; but a timeout firing does not cancel the
notification path: the registered listener stays in place (its later runs
settle nothing only because the promise is already settled). -/
theorem rf_race_single_settlement :
    (∀ (m : SweepMachine) (s : Bool), m.handler = none →
      m.nextToken ∉ m.sweepTimers →
      (fireSweepListeners s (sweepFrequency m).1).sweepTimers.count
          m.nextToken = 0 ∧
      (fireSweepListeners s (sweepFrequency m).1).promises.lookup m.nextToken
        = some (if s then .resolved else .rejectedNotSuccessful)) ∧
    (∀ (m : SweepMachine) (t : Nat) (o : SweepOutcome)
        (es : List SweepEvent),
      (∀ p ∈ m.promises, p.1 < m.nextToken) →
      m.promises.lookup t = some o → o ≠ .pending →
      (es.foldl (fun acc e => sweepStep e acc) m).promises.lookup t
        = some o) ∧
    (∀ (u : Nat) (m : SweepMachine),
      (sweepTimeoutFire u m).listeners = m.listeners) ∧
    (∀ (m : ConfirmMachine) (buf : List Nat), m.handler = none →
      m.nextToken ∉ m.dataTimers →
      (fireDataListeners buf (confirmFrequency m).1).dataTimers.count
          m.nextToken = 0 ∧
      (fireDataListeners buf (confirmFrequency m).1).promises.lookup
          m.nextToken = some (.resolvedWith buf)) ∧
    (∀ (m : ConfirmMachine) (t : Nat) (o : ConfirmOutcome)
        (es : List ConfirmEvent),
      (∀ p ∈ m.promises, p.1 < m.nextToken) →
      m.promises.lookup t = some o → o ≠ .pending →
      (es.foldl (fun acc e => confirmStep e acc) m).promises.lookup t
        = some o) ∧
    (∀ (u : Nat) (m : ConfirmMachine),
      (confirmTimeoutFire u m).listeners = m.listeners) := by
  refine ⟨?_, ?_, ?_, ?_, ?_, ?_⟩
  case refine_2 =>
    intro m t o es hwf hl hnp
    exact sweepSteps_settled_stable es m t o hwf hl hnp
  · intro m s hh htm
    have he : (sweepFrequency m).1
        = { m with
            handler := some m.nextToken,
            nextToken := m.nextToken + 1,
            promises := (m.nextToken, .pending) :: m.promises,
            sweepTimers := m.nextToken :: m.sweepTimers,
            pollTimers := m.nextToken :: m.pollTimers,
            listeners := m.listeners ++ [m.nextToken],
            sent := m.sent ++ (if m.rf then [0x19] else []) } := by
      simp [sweepFrequency, hh]
    rw [he, fireSweepListeners]
    constructor
    · refine sweepRun_fold_timer_cleared s _ _ m.nextToken
        (List.mem_append_right _ (by simp)) ?_
      show (m.nextToken :: m.sweepTimers).count m.nextToken ≤ 1
      rw [List.count_cons_self, List.count_eq_zero.mpr htm]
    · refine sweepRun_fold_hit s _ _ m.nextToken
        (List.mem_append_right _ (by simp)) ?_
      exact List.lookup_cons_self
  · intro u m
    unfold sweepTimeoutFire
    split_ifs <;> rfl
  · intro m buf hh htm
    have he : (confirmFrequency m).1
        = { m with
            handler := some m.nextToken,
            nextToken := m.nextToken + 1,
            promises := (m.nextToken, .pending) :: m.promises,
            dataTimers := m.nextToken :: m.dataTimers,
            pollTimers := m.nextToken :: m.pollTimers,
            listeners := m.listeners ++ [m.nextToken],
            sent := m.sent ++ (if m.rf then [0x1b] else []) } := by
      simp [confirmFrequency, hh]
    rw [he, fireDataListeners]
    constructor
    · refine dataRun_fold_timer_cleared buf _ _ m.nextToken
        (List.mem_append_right _ (by simp)) ?_
      show (m.nextToken :: m.dataTimers).count m.nextToken ≤ 1
      rw [List.count_cons_self, List.count_eq_zero.mpr htm]
    · refine dataRun_fold_hit buf _ _ m.nextToken
        (List.mem_append_right _ (by simp)) ?_
      exact List.lookup_cons_self
  · intro m t o es hwf hl hnp
    exact confirmSteps_settled_stable es m t o hwf hl hnp
  · intro u m
    unfold confirmTimeoutFire
    split_ifs <;> rfl

/-- Witness for C3 on a fresh RF session: a success notification after the
first `sweepFrequency` call clears the 30-second timer and resolves the
promise; a data notification clears the 10-second timer and resolves with
the received bytes; a later timeout changes neither outcome. -/
theorem rf_race_single_settlement_witness :
    (fireSweepListeners true
        (sweepFrequency (SweepMachine.initial true)).1).sweepTimers.count 0
      = 0 ∧
    (fireSweepListeners true
        (sweepFrequency (SweepMachine.initial true)).1).promises.lookup 0
      = some SweepOutcome.resolved ∧
    (fireDataListeners [1, 2, 3]
        (confirmFrequency (ConfirmMachine.initial true)).1).promises.lookup 0
      = some (ConfirmOutcome.resolvedWith [1, 2, 3]) :=
  have hs := rf_race_single_settlement.1 (SweepMachine.initial true) true
    (by decide) (by decide)
  have hc := rf_race_single_settlement.2.2.2.1 (ConfirmMachine.initial true)
    [1, 2, 3] (by decide) (by decide)
  ⟨hs.1, hs.2, hc.2⟩

/-- Counterexample for C3 as stated: after the 30-second (sweep) or
10-second (confirm) timeout fires for the fresh invocation, its promise is
rejected with a timeout but the registered notification listener is still
in the listener list — the timeout path does not remove it. -/
theorem rf_timeout_keeps_listener :
    (sweepTimeoutFire 0
        (sweepFrequency (SweepMachine.initial true)).1).listeners = [0] ∧
    (sweepTimeoutFire 0
        (sweepFrequency (SweepMachine.initial true)).1).promises
      = [(0, SweepOutcome.rejectedTimedOut)] ∧
    (confirmTimeoutFire 0
        (confirmFrequency (ConfirmMachine.initial true)).1).listeners
      = [0] := by decide

end BroadlinkRM
